import Mathlib

/-!
Verification development for the NestAi personal knowledge analyst.

Each Python component relevant to the checked properties is shallowly
embedded as executable Lean definitions: lists model Python lists and
SQL result sets, association lists model dicts, `Option` models `None`,
`Except` models raised exceptions, and `Int`/`Nat` model Python integers.
External boundaries (HTTP daemons, hashing, JSON parsing of wire bytes)
are modelled as explicit inputs or oracle functions.
-/

namespace NestAi

/-! ## String helpers

Python string primitives (`str.strip`, `str.split`, `str.splitlines`,
`str.startswith`, ...) are modelled by structurally recursive functions
over the character list of a `String`, so that every concrete instance
evaluates inside the kernel.  Only `\n` line endings occur in the
modelled inputs, so `splitlines` is splitting on `'\n'`. -/

/-- Split a character list at every character satisfying `p`
(Python `str.split(sep)` keeps empty fields; callers filter). -/
def splitPred (p : Char → Bool) : List Char → List (List Char)
  | [] => [[]]
  | a :: rest =>
    match splitPred p rest with
    | [] => [[]]
    | g :: gs => if p a then [] :: g :: gs else (a :: g) :: gs

/-- Python `str.strip()` (whitespace on both ends). -/
def pyStripList (cs : List Char) : List Char :=
  ((cs.dropWhile Char.isWhitespace).reverse.dropWhile Char.isWhitespace).reverse

/-- Python `str.strip()` on strings. -/
def pyStrip (s : String) : String :=
  String.mk (pyStripList s.data)

/-- Python `str.rstrip()`. -/
def pyRStrip (s : String) : String :=
  String.mk ((s.data.reverse.dropWhile Char.isWhitespace).reverse)

/-- Python `str.splitlines()` for `\n`-terminated text. -/
def splitLines (s : String) : List String :=
  (splitPred (fun c => c = '\n') s.data).map String.mk

/-- Does the first list start with the second? -/
def startsWithChars : List Char → List Char → Bool
  | _, [] => true
  | [], _ :: _ => false
  | a :: as, b :: bs => a = b && startsWithChars as bs

/-- Python `str.startswith`. -/
def pyStartsWith (s pre : String) : Bool :=
  startsWithChars s.data pre.data

/-- Python `pat in hay` for strings (substring containment). -/
def containsChars (hay pat : List Char) : Bool :=
  match hay with
  | [] => pat.isEmpty
  | _ :: rest => startsWithChars hay pat || containsChars rest pat

/-- Python `str.lower()`. -/
def pyLower (s : String) : String :=
  String.mk (s.data.map Char.toLower)

/-- Python `len(stripped.split())` — the whitespace-token count used by
all three chunkers (`_count_tokens`). -/
def countTokens (s : String) : Nat :=
  let stripped := pyStripList s.data
  if stripped.isEmpty then 0
  else ((splitPred Char.isWhitespace stripped).filter (fun g => !g.isEmpty)).length

/-! ## Retrieval orchestrator (services/retrieval/orchestrator.py)

`RetrievalOrchestrator.retrieve`: after the BM25 and vector searches
return their hit lists, the method merges them into a map keyed by chunk
id (first occurrence fixes the payload), builds a deterministic order
(BM25 hits first, then unseen vector hits), and walks that order with a
per-document diversity cap and a final limit.  A hit is modelled by its
`chunk_id` and `document_id`; the remaining payload fields do not affect
the selection. -/

structure Hit where
  chunk_id : Int
  document_id : Int
deriving Repr, DecidableEq

/-- One step of `ensure_result`: insert the hit into the merged map
(dict keyed by chunk id) unless the key is already present. -/
def insertMerged (m : List (Int × Int)) (h : Hit) : List (Int × Int) :=
  if (m.find? (fun p => p.1 == h.chunk_id)).isSome then m
  else m ++ [(h.chunk_id, h.document_id)]

/-- The merged map after the two `for rank, hit in enumerate(...)` loops:
BM25 hits are inserted first, then vector hits. -/
def buildMerged (bm25 vector : List Hit) : List (Int × Int) :=
  vector.foldl insertMerged (bm25.foldl insertMerged [])

/-- One step of the `ordered_ids` accumulation: append the chunk id
unless it was already appended. -/
def insertOrdered (acc : List Int) (h : Hit) : List Int :=
  if acc.contains h.chunk_id then acc else acc ++ [h.chunk_id]

/-- `ordered_ids`: every BM25 chunk id in order, then every vector chunk
id not already seen. -/
def orderedIds (bm25 vector : List Hit) : List Int :=
  vector.foldl insertOrdered (bm25.foldl insertOrdered [])

/-- `merged.get(chunk_id)` projected to the document id. -/
def lookupDoc (merged : List (Int × Int)) (cid : Int) : Option Int :=
  (merged.find? (fun p => p.1 == cid)).map (·.2)

/-- `doc_counts` lookup with `setdefault(..., 0)` semantics. -/
def countOf : List (Int × Nat) → Int → Nat
  | [], _ => 0
  | p :: rest, d => if p.1 == d then p.2 else countOf rest d

/-- `doc_counts[result.document_id] += 1`. -/
def bumpCount (counts : List (Int × Nat)) (d : Int) : List (Int × Nat) :=
  match counts with
  | [] => [(d, 1)]
  | p :: rest => if p.1 == d then (p.1, p.2 + 1) :: rest else p :: bumpCount rest d

/-- The selection loop of `retrieve` (`for chunk_id in ordered_ids`):
skip ids missing from the merged map, skip entries whose document count
reached `diversity_cap`, append otherwise, and stop once `final_limit`
entries are selected. -/
def selectLoop (merged : List (Int × Int)) (cap limit : Nat) :
    List Int → List (Int × Nat) → List Int → List Int
  | [], _, selected => selected
  | cid :: rest, counts, selected =>
    match lookupDoc merged cid with
    | none => selectLoop merged cap limit rest counts selected
    | some doc =>
      if cap ≤ countOf counts doc then
        selectLoop merged cap limit rest counts selected
      else
        if limit ≤ (selected ++ [cid]).length then selected ++ [cid]
        else selectLoop merged cap limit rest (bumpCount counts doc) (selected ++ [cid])

/-- The post-search portion of `RetrievalOrchestrator.retrieve`, returning
the chunk ids of the selected results in order. -/
def retrieveCore (bm25 vector : List Hit) (cap limit : Nat) : List Int :=
  selectLoop (buildMerged bm25 vector) cap limit (orderedIds bm25 vector) [] []

/-! Specification-level formulation of the same pipeline, written from the
spec's words: "append each BM25 hit's chunk_id in its original order, then
each vector hit's chunk_id not already seen", then "walk the merged order;
accept an entry if its document's running count < diversity_cap; stop at
final_limit". -/

/-- Append each id from `ids` to `seen` unless already present. -/
def appendUnseen (seen : List Int) : List Int → List Int
  | [] => seen
  | i :: rest => if seen.contains i then appendUnseen seen rest
      else appendUnseen (seen ++ [i]) rest

/-- Spec-side merged order over raw chunk-id lists. -/
def specMergedOrder (bmIds vecIds : List Int) : List Int :=
  appendUnseen (appendUnseen [] bmIds) vecIds

/-- Spec-side diversity walk, with the running counts kept as a function. -/
def specWalk (docOf : Int → Option Int) (cap limit : Nat) :
    List Int → (Int → Nat) → List Int → List Int
  | [], _, sel => sel
  | cid :: rest, counts, sel =>
    match docOf cid with
    | none => specWalk docOf cap limit rest counts sel
    | some d =>
      if counts d < cap then
        if limit ≤ (sel ++ [cid]).length then sel ++ [cid]
        else specWalk docOf cap limit rest
          (fun x => if x == d then counts x + 1 else counts x) (sel ++ [cid])
      else specWalk docOf cap limit rest counts sel

/-! Concrete scenario from the spec: documents A, B, C with
A1 = 101, A2 = 102 (document 1), B1 = 201, B2 = 202 (document 2),
C1 = 301 (document 3). -/

def exBM25 : List Hit := [⟨101, 1⟩, ⟨201, 2⟩, ⟨102, 1⟩]

def exVector : List Hit := [⟨301, 3⟩, ⟨101, 1⟩, ⟨202, 2⟩]

section OrchestratorProofs

lemma countOf_bumpCount (counts : List (Int × Nat)) (d x : Int) :
    countOf (bumpCount counts d) x = if x = d then countOf counts x + 1 else countOf counts x := by
  induction counts with
  | nil =>
    by_cases hxd : x = d
    · subst hxd; simp [bumpCount, countOf]
    · simp [bumpCount, countOf, hxd, Ne.symm hxd]
  | cons p rest ih =>
    by_cases hpd : p.1 = d
    · subst hpd
      by_cases hxp : x = p.1
      · subst hxp; simp [bumpCount, countOf]
      · simp [bumpCount, countOf, hxp, Ne.symm hxp]
    · by_cases hxp : x = p.1
      · subst hxp
        simp [bumpCount, countOf, hpd, Ne.symm hpd]
      · simp [bumpCount, countOf, hpd, Ne.symm hxp, ih]

lemma foldl_insertOrdered (hits : List Hit) (acc : List Int) :
    hits.foldl insertOrdered acc = appendUnseen acc (hits.map (·.chunk_id)) := by
  induction hits generalizing acc with
  | nil => rfl
  | cons h rest ih =>
    by_cases hc : h.chunk_id ∈ acc <;>
      simp [insertOrdered, appendUnseen, hc, ih]

lemma orderedIds_eq_spec (bm25 vector : List Hit) :
    orderedIds bm25 vector =
      specMergedOrder (bm25.map (·.chunk_id)) (vector.map (·.chunk_id)) := by
  unfold orderedIds specMergedOrder
  rw [foldl_insertOrdered, foldl_insertOrdered]

lemma selectLoop_eq_specWalk (merged : List (Int × Int)) (cap limit : Nat)
    (order : List Int) (counts : List (Int × Nat)) (f : Int → Nat)
    (hcf : ∀ d, countOf counts d = f d) (sel : List Int) :
    selectLoop merged cap limit order counts sel =
      specWalk (lookupDoc merged) cap limit order f sel := by
  induction order generalizing counts f sel with
  | nil => rfl
  | cons cid rest ih =>
    simp only [selectLoop, specWalk]
    cases hdoc : lookupDoc merged cid with
    | none => exact ih counts f hcf sel
    | some d =>
      dsimp only
      have hcnt : countOf counts d = f d := hcf d
      rw [hcnt]
      by_cases hcap : f d < cap
      · rw [if_neg (by omega : ¬ cap ≤ f d), if_pos hcap]
        by_cases hlim : limit ≤ (sel ++ [cid]).length
        · rw [if_pos hlim, if_pos hlim]
        · rw [if_neg hlim, if_neg hlim]
          refine ih (bumpCount counts d) _ ?_ (sel ++ [cid])
          intro x
          rw [countOf_bumpCount]
          by_cases hxd : x = d <;> simp [hxd, hcf x, hcnt]
      · rw [if_pos (by omega : cap ≤ f d), if_neg hcap]
        exact ih counts f hcf sel

/-- C1: `retrieve` realizes the spec's fusion pipeline — the merged order
appends BM25 chunk ids in their original order followed by unseen vector
chunk ids, and the selection walks that order accepting an entry only
while its document's running count is below `diversity_cap`, stopping at
`final_limit`; on the concrete scenario BM25 = [A1, B1, A2],
vector = [C1, A1, B2] with cap 2 and limit 4 the output is
[A1, B1, A2, C1]. -/
theorem retrieve_merged_order_and_cap :
    (∀ bm25 vector cap limit,
      retrieveCore bm25 vector cap limit =
        specWalk (lookupDoc (buildMerged bm25 vector)) cap limit
          (specMergedOrder (bm25.map (·.chunk_id)) (vector.map (·.chunk_id)))
          (fun _ => 0) []) ∧
    retrieveCore exBM25 exVector 2 4 = [101, 201, 102, 301] := by
  constructor
  · intro bm25 vector cap limit
    unfold retrieveCore
    rw [orderedIds_eq_spec]
    exact selectLoop_eq_specWalk _ _ _ _ [] (fun _ => 0) (fun _ => rfl) []
  · rfl

end OrchestratorProofs

/-! ## Context builder (services/retrieval/context_builder.py)

`ContextBuilder._format_citation` and `ContextBuilder._compose_rationale`.
A `RetrievalResult` is modelled by the fields those two methods read.
Python floats carry no arithmetic here, so scores are opaque values of
type `Int` and the `f"{...3f}"` rendering is an abstract formatting
function passed in as `fmt`. -/

/-- `pathlib.Path(p).name` for POSIX-style paths: the last nonempty
component of the slash-separated path. -/
def basename (p : String) : String :=
  String.mk ((((splitPred (fun c => c = '/') p.data)).filter (fun g => !g.isEmpty)).getLastD [])

/-- Python truthiness of an optional int (`None` and `0` are falsy). -/
def truthy : Option Int → Bool
  | none => false
  | some n => n != 0

structure RetrievalResult where
  chunk_id : Int
  document_id : Int
  path : String
  title : String
  content : String
  start_line : Option Int
  end_line : Option Int
  page_no : Option Int
  token_count : Option Int
  score_bm25 : Option Int
  score_embed : Option Int
  distance : Option Int
  rank_bm25 : Option Int
  rank_embed : Option Int
  rationale : Option String
deriving Repr, DecidableEq

/-- `ContextBuilder._format_citation`: the fragment is the line range if
`start_line` and `end_line` are truthy, else the page if truthy, else
empty; a nonempty fragment is appended after a colon. -/
def formatCitation (r : RetrievalResult) : String :=
  let name := basename r.path
  let fragment :=
    if truthy r.start_line && truthy r.end_line then
      "L" ++ toString (r.start_line.getD 0) ++ "-L" ++ toString (r.end_line.getD 0)
    else if truthy r.page_no then
      "p." ++ toString (r.page_no.getD 0)
    else ""
  if fragment != "" then name ++ ":" ++ fragment else name

/-- `ContextBuilder._compose_rationale`: collect the score indicators
that are not `None` (distance only when the embed score is `None`) and
comma-join them, defaulting to "Relevant snippet". -/
def composeRationale (fmt : Int → String) (r : RetrievalResult) : String :=
  let parts : List String := []
  let parts := match r.score_bm25 with
    | some s => parts ++ ["BM25=" ++ fmt s]
    | none => parts
  let parts := match r.score_embed with
    | some s => parts ++ ["Embed=" ++ fmt s]
    | none => parts
  let parts := match r.distance, r.score_embed with
    | some dv, none => parts ++ ["Dist=" ++ fmt dv]
    | _, _ => parts
  if parts != [] then String.intercalate ", " parts else "Relevant snippet"

/-- The citation format as the claim words it: line-range form when both
line fields are present, page form when a page number is present and the
line fields are absent, bare basename otherwise. -/
def claimFormatCitation (r : RetrievalResult) : String :=
  if r.start_line.isSome && r.end_line.isSome then
    basename r.path ++ ":L" ++ toString (r.start_line.getD 0) ++ "-L" ++ toString (r.end_line.getD 0)
  else if r.page_no.isSome && r.start_line.isNone && r.end_line.isNone then
    basename r.path ++ ":p." ++ toString (r.page_no.getD 0)
  else basename r.path

/-- A result with a start line but no end line, plus a page number. -/
def r0 : RetrievalResult :=
  ⟨1, 1, "/docs/doc.pdf", "", "", some 10, none, some 2, none, none, none, none, none, none, none⟩

section ContextBuilderProofs

/-- C7 counterexample: for `start_line = 10`, `end_line = None`,
`page_no = 2` the code emits the page citation even though a line number
is present, while the claim's case analysis ("page form when lines are
absent, bare basename otherwise") yields the bare basename: the claim is
false for this result. -/
theorem format_citation_counterexample :
    formatCitation r0 = "doc.pdf:p.2" ∧ claimFormatCitation r0 = "doc.pdf" ∧
      formatCitation r0 ≠ claimFormatCitation r0 := by
  refine ⟨by decide, by decide, by decide⟩

/-- C7 amended: the citation is the line-range form when both line
fields are truthy (present and nonzero), the page form when the page is
truthy and the line fields are not both truthy, and the bare basename
otherwise; the rationale comma-joins the available score indicators
(`Dist` only when the embed score is absent) and defaults to
"Relevant snippet" when none is available. -/
theorem context_builder_format (r : RetrievalResult) (fmt : Int → String) :
    (truthy r.start_line = true → truthy r.end_line = true →
      formatCitation r = basename r.path ++ ":" ++
        ("L" ++ toString (r.start_line.getD 0) ++ "-L" ++ toString (r.end_line.getD 0))) ∧
    (¬ (truthy r.start_line = true ∧ truthy r.end_line = true) →
      truthy r.page_no = true →
      formatCitation r = basename r.path ++ ":" ++ ("p." ++ toString (r.page_no.getD 0))) ∧
    (¬ (truthy r.start_line = true ∧ truthy r.end_line = true) →
      truthy r.page_no = false →
      formatCitation r = basename r.path) ∧
    (composeRationale fmt r =
      (let parts := (r.score_bm25.map (fun s => "BM25=" ++ fmt s)).toList
        ++ (r.score_embed.map (fun s => "Embed=" ++ fmt s)).toList
        ++ (match r.distance, r.score_embed with
            | some dv, none => ["Dist=" ++ fmt dv]
            | _, _ => ([] : List String))
      if parts = [] then "Relevant snippet" else String.intercalate ", " parts)) := by
  refine ⟨?_, ?_, ?_, ?_⟩
  · intro h1 h2
    have hfrag : (("L" ++ toString (r.start_line.getD 0) ++ "-L" ++ toString (r.end_line.getD 0))
        != "") = true := by
      simp only [bne_iff_ne, ne_eq]
      intro h
      have := congrArg String.data h
      simp [String.data_append] at this
    simp only [formatCitation, h1, h2, Bool.and_self, if_pos, if_true]
    rw [if_pos hfrag]
  · intro h1 h2
    have hne : (truthy r.start_line && truthy r.end_line) = false := by
      cases hs : truthy r.start_line <;> cases he : truthy r.end_line <;> simp_all
    have hfrag : (("p." ++ toString (r.page_no.getD 0)) != "") = true := by
      simp only [bne_iff_ne, ne_eq]
      intro h
      have := congrArg String.data h
      simp [String.data_append] at this
    simp only [formatCitation, hne, Bool.false_eq_true, if_false, h2, if_true]
    rw [if_pos hfrag]
  · intro h1 h2
    have hne : (truthy r.start_line && truthy r.end_line) = false := by
      cases hs : truthy r.start_line <;> cases he : truthy r.end_line <;> simp_all
    simp [formatCitation, hne, h2]
  · cases hsb : r.score_bm25 <;> cases hse : r.score_embed <;> cases hd : r.distance <;>
      simp [composeRationale, hsb, hse, hd]

/-- Witness for `context_builder_format` at a concrete result. -/
theorem context_builder_format_witness :
    formatCitation
        ⟨1, 1, "/n/a.md", "", "", some 1, some 2, none, none, none, none, none, none, none, none⟩ =
      basename "/n/a.md" ++ ":" ++
        ("L" ++ toString ((some (1 : Int)).getD 0) ++ "-L" ++ toString ((some (2 : Int)).getD 0)) :=
  (context_builder_format
    ⟨1, 1, "/n/a.md", "", "", some 1, some 2, none, none, none, none, none, none, none, none⟩
    (fun _ => "0.000")).1 rfl rfl

end ContextBuilderProofs

/-! ## Email quote stripping (services/ingest/email.py)

`EmailIngestService._strip_quotes` with
`quote_pattern = re.compile(r"^On .*wrote:$", flags=re.IGNORECASE)`.
The pattern is matched against the whitespace-stripped line; it holds
exactly when the lowercased line starts with `"on "`, ends with
`"wrote:"`, and is at least 9 characters long. -/

/-- `quote_pattern.match(stripped)` as a Boolean. -/
def quoteMatch (s : String) : Bool :=
  let low := s.data.map Char.toLower
  decide (9 ≤ low.length) && startsWithChars low ['o', 'n', ' ']
    && startsWithChars low.reverse [':', 'e', 't', 'o', 'r', 'w']

/-- A line that turns `skip_block` on: its stripped form starts with
`>` or matches the quote pattern. -/
def quoteTrigger (stripped : String) : Bool :=
  pyStartsWith stripped ">" || quoteMatch stripped

/-- One iteration of the `for line in lines` loop of `_strip_quotes`;
the state is `(cleaned, skip_block)`. -/
def stripQuotesStep (st : List String × Bool) (line : String) : List String × Bool :=
  let stripped := pyStrip line
  let skip := if quoteTrigger stripped then true else st.2
  if skip && (stripped == "") then (st.1, false)
  else if skip then (st.1, true)
  else (st.1 ++ [line], skip)

/-- `EmailIngestService._strip_quotes`. -/
def stripQuotes (body : String) : String :=
  pyStrip (String.intercalate "\n" ((splitLines body).foldl stripQuotesStep ([], false)).1)

/-- The claim's regex `^On .* wrote:$` (note the space before `wrote:`),
case-insensitive, on the raw line. -/
def claimQuoteMatch (s : String) : Bool :=
  let low := s.data.map Char.toLower
  decide (10 ≤ low.length) && startsWithChars low ['o', 'n', ' ']
    && startsWithChars low.reverse [':', 'e', 't', 'o', 'r', 'w', ' ']

/-- Quote stripping as the claim words it: drop exactly the lines
beginning with `>`, and after a line matching the claimed pattern drop
the block of lines up to the next blank line, leaving every other line
intact. -/
def claimStripGo : Bool → List String → List String
  | _, [] => []
  | skip, l :: rest =>
    if pyStartsWith l ">" then claimStripGo skip rest
    else if claimQuoteMatch l then claimStripGo true rest
    else if skip then
      (if pyStrip l == "" then l :: claimStripGo false rest else claimStripGo true rest)
    else l :: claimStripGo false rest

/-- The claim-level quote stripper. -/
def claimStripQuotes (body : String) : String :=
  String.intercalate "\n" (claimStripGo false (splitLines body))

/-! The amended behaviour, phrased block-wise: a trigger line starts a
skip block that swallows every following line up to and including the
next blank-only line. -/

mutual

/-- Outside a skip block: keep non-trigger lines. -/
def amendedKeep : List String → List String
  | [] => []
  | l :: rest =>
    if quoteTrigger (pyStrip l) then amendedDrop rest
    else l :: amendedKeep rest

/-- Inside a skip block: drop lines up to and including the next blank. -/
def amendedDrop : List String → List String
  | [] => []
  | l :: rest => if pyStrip l == "" then amendedKeep rest else amendedDrop rest

end

/-- An email body whose quoted line is directly followed by fresh text. -/
def quotedBodyEx : String := "> quoted\nreply\n\nkeep"

section EmailProofs

/-- C8 counterexample: on the body `"> quoted\nreply\n\nkeep"` the code
drops the unquoted line `"reply"` (and the blank) because the `>` line
opens a skip block, so the claim — only the `>` lines themselves are
removed and every other line is left intact — is false. -/
theorem strip_quotes_counterexample :
    stripQuotes quotedBodyEx = "keep" ∧
      claimStripQuotes quotedBodyEx = "reply\n\nkeep" ∧
      stripQuotes quotedBodyEx ≠ claimStripQuotes quotedBodyEx := by
  refine ⟨by decide, by decide, by decide⟩

lemma trigger_stripped_ne_empty (l : String) (h : quoteTrigger (pyStrip l) = true) :
    (pyStrip l == "") = false := by
  cases hb : (pyStrip l == "")
  · rfl
  · exfalso
    have he : pyStrip l = "" := eq_of_beq hb
    rw [he] at h
    simp [quoteTrigger, pyStartsWith, startsWithChars, quoteMatch] at h

lemma foldl_stripQuotesStep (ls : List String) :
    ∀ acc : List String,
      ((ls.foldl stripQuotesStep (acc, false)).1 = acc ++ amendedKeep ls ∧
       (ls.foldl stripQuotesStep (acc, true)).1 = acc ++ amendedDrop ls) := by
  induction ls with
  | nil => intro acc; simp [amendedKeep, amendedDrop]
  | cons l rest ih =>
    intro acc
    constructor
    · by_cases ht : quoteTrigger (pyStrip l) = true
      · have hne := trigger_stripped_ne_empty l ht
        simp only [List.foldl_cons, stripQuotesStep, ht, if_true, hne, Bool.and_false,
          Bool.false_eq_true, if_false, Bool.true_and, if_pos]
        rw [amendedKeep, if_pos ht]
        exact (ih acc).2
      · have ht2 : quoteTrigger (pyStrip l) = false := by
          cases h : quoteTrigger (pyStrip l) <;> simp_all
        simp only [List.foldl_cons, stripQuotesStep, ht2, Bool.false_eq_true, if_false,
          Bool.false_and, Bool.and_self]
        rw [amendedKeep, if_neg (by simp [ht2])]
        simpa [List.append_assoc] using (ih (acc ++ [l])).1
    · by_cases hb : (pyStrip l == "") = true
      · have ht2 : quoteTrigger (pyStrip l) = false := by
          cases h : quoteTrigger (pyStrip l)
          · rfl
          · exact absurd (trigger_stripped_ne_empty l h) (by simp [hb])
        simp only [List.foldl_cons, stripQuotesStep, ht2, Bool.false_eq_true, if_false,
          hb, Bool.and_true, Bool.true_and, if_pos]
        rw [amendedDrop, if_pos hb]
        exact (ih acc).1
      · have hb2 : (pyStrip l == "") = false := by
          cases h : (pyStrip l == "") <;> simp_all
        have hcond : ∀ c : Bool, ((if quoteTrigger (pyStrip l) = true then true else c) = true) ∨
            ((if quoteTrigger (pyStrip l) = true then true else c) = c) := by
          intro c
          by_cases h : quoteTrigger (pyStrip l) = true <;> simp [h]
        simp only [List.foldl_cons, stripQuotesStep, hb2, Bool.and_false, Bool.false_eq_true,
          if_false]
        have hskip : (if quoteTrigger (pyStrip l) = true then true else true) = true := by
          by_cases h : quoteTrigger (pyStrip l) = true <;> simp [h]
        rw [hskip]
        simp only [Bool.true_and, hb2, Bool.false_eq_true, if_false, if_pos]
        rw [amendedDrop, if_neg (by simp [hb2])]
        exact (ih acc).2

/-- C8 amended: `_strip_quotes` drops, for every line whose stripped
form begins with `>` or matches `^On .*wrote:$` (case-insensitively),
that line and every following line up to and including the next
blank-only line, and finally strips surrounding whitespace from the
rejoined text. -/
theorem strip_quotes_amended (body : String) :
    stripQuotes body =
      pyStrip (String.intercalate "\n" (amendedKeep (splitLines body))) := by
  unfold stripQuotes
  rw [(foldl_stripQuotesStep (splitLines body) []).1]
  rfl

end EmailProofs

/-! ## Markdown chunker (services/ingest/markdown.py)

`MarkdownIngestService`: title resolution, section splitting at `#`/`##`
headings, and the greedy line-window chunk generator.  The `while` loop
of `_generate_chunks` is modelled with an explicit fuel argument; the
totality theorem shows the fuel `total_lines + 1` always suffices when
`max_tokens ≥ 1` (for `max_tokens = 0` the Python loop itself does not
terminate on a nonempty section). -/

structure Section where
  title : String
  start_line : Nat
  lines : List String
deriving Repr, DecidableEq

structure ChunkPayload where
  text : String
  start_line : Nat
  end_line : Nat
  token_count : Nat
deriving Repr, DecidableEq

/-- `heading_pattern = re.compile(r"^(#{1,2})\s+(.+?)\s*$")`, returning
`match.group(2).strip()` when the line matches: one or two `#` followed
by a whitespace character and at least one further character; the
captured group stripped of surrounding whitespace is the remainder after
the hashes, trimmed. -/
def headingMatch (line : String) : Option String :=
  let cs := line.data
  let hashes := cs.takeWhile (fun c => c = '#')
  let rest := cs.drop hashes.length
  if hashes.length = 1 ∨ hashes.length = 2 then
    match rest with
    | c :: _ :: _ =>
      if c.isWhitespace then some (String.mk (pyStripList rest)) else none
    | _ => none
  else none

/-- Python `str.title()` over a character list: letters following a
non-letter are uppercased, other letters lowercased. -/
def titleChars : Bool → List Char → List Char
  | _, [] => []
  | prevAlpha, c :: rest =>
    let c2 := if c.isAlpha then (if prevAlpha then c.toLower else c.toUpper) else c
    c2 :: titleChars c.isAlpha rest

/-- First heading title in the content lines. -/
def firstHeading : List String → Option String
  | [] => none
  | l :: rest =>
    match headingMatch l with
    | some t => some t
    | none => firstHeading rest

/-- `MarkdownIngestService._resolve_title`: frontmatter title if it is a
nonempty string, else the first `#`/`##` heading, else the titleized
file stem with underscores replaced by spaces. -/
def resolveTitle (metaTitle : Option String) (content : String) (stem : String) : String :=
  match metaTitle with
  | some t =>
    if pyStrip t ≠ "" then pyStrip t
    else
      match firstHeading (splitLines content) with
      | some t2 => t2
      | none => String.mk (titleChars false (stem.data.map (fun c => if c = '_' then ' ' else c)))
  | none =>
    match firstHeading (splitLines content) with
    | some t2 => t2
    | none => String.mk (titleChars false (stem.data.map (fun c => if c = '_' then ' ' else c)))

/-- The loop body of `_split_sections`, carrying
`(current_title, current_start, current_lines, sections)` and the
1-based line index. -/
def splitSectionsGo : List String → Nat → String → Nat → List String → List Section → List Section
  | [], _, curTitle, curStart, curLines, acc =>
    if curLines.isEmpty then acc else acc ++ [⟨curTitle, curStart, curLines⟩]
  | line :: rest, idx, curTitle, curStart, curLines, acc =>
    match headingMatch line with
    | some t =>
      let acc2 := if curLines.isEmpty then acc else acc ++ [⟨curTitle, curStart, curLines⟩]
      splitSectionsGo rest (idx + 1) t idx [line] acc2
    | none => splitSectionsGo rest (idx + 1) curTitle curStart (curLines ++ [line]) acc

/-- `MarkdownIngestService._split_sections`. -/
def splitSections (lines : List String) (defaultTitle : String) : List Section :=
  splitSectionsGo lines 1 defaultTitle 1 [] []

/-- `_compute_overlap`: walk the emitted window backwards accumulating
token counts until `overlap_tokens` is reached, counting lines. -/
def computeOverlapGo (overlapTokens : Nat) : List Nat → Nat → Nat → Nat
  | [], _, lines => lines
  | c :: rest, acc, lines =>
    if overlapTokens ≤ acc + c then lines + 1
    else computeOverlapGo overlapTokens rest (acc + c) (lines + 1)

/-- `_compute_overlap` (shared verbatim by the markdown, pdf and email
services). -/
def computeOverlap (tokensSegment : List Nat) (overlapTokens : Nat) : Nat :=
  computeOverlapGo overlapTokens tokensSegment.reverse 0 0

/-- Structural core of the accumulation loops: `remaining` is the token
list from the current end index on. -/
def accumulateEndGo (maxTokens : Nat) : List Nat → Nat → Nat → Nat × Nat
  | [], endIdx, sum => (endIdx, sum)
  | t :: rest, endIdx, sum =>
    if sum < maxTokens then accumulateEndGo maxTokens rest (endIdx + 1) (sum + t)
    else (endIdx, sum)

/-- The inner accumulation loop of `_generate_chunks` (and of the email
chunker): starting from `endIdx`/`sum`, add whole lines while
`end_index < total_lines and token_sum < max_tokens`. -/
def accumulateEnd (tok : List Nat) (maxTokens : Nat) (endIdx sum : Nat) : Nat × Nat :=
  accumulateEndGo maxTokens (tok.drop endIdx) endIdx sum

/-- `max(1, int(max_tokens * overlap_ratio))` for an overlap ratio given
as the exact fraction `num/den` (0.5 = 1/2, the value used by the
scenario; Python's float product is exact there). -/
def overlapTokensOf (maxTokens num den : Nat) : Nat :=
  max 1 (maxTokens * num / den)

/-- The `while cursor < total_lines` loop of `_generate_chunks` for one
section, with explicit fuel (`none` = fuel exhausted). -/
def chunkLoop (lines : List String) (tok : List Nat) (secStart maxTokens overlapTokens : Nat) :
    Nat → Nat → Option (List ChunkPayload)
  | 0, _ => none
  | fuel + 1, cursor =>
    if cursor < lines.length then
      let acc := accumulateEnd tok maxTokens cursor 0
      let window := (lines.drop cursor).take (acc.1 - cursor)
      let chunkLines := (window.filter (fun l => !(pyStrip l == ""))).map pyRStrip
      if chunkLines.isEmpty then
        chunkLoop lines tok secStart maxTokens overlapTokens fuel acc.1
      else
        let payload : ChunkPayload :=
          ⟨pyStrip (String.intercalate "\n" chunkLines),
            secStart + cursor, secStart + acc.1 - 1, acc.2⟩
        if lines.length ≤ acc.1 then some [payload]
        else
          let overlapLines := computeOverlap ((tok.drop cursor).take (acc.1 - cursor)) overlapTokens
          (chunkLoop lines tok secStart maxTokens overlapTokens fuel
            (max (cursor + 1) (acc.1 - overlapLines))).map (payload :: ·)
    else some []

/-- `MarkdownIngestService._generate_chunks` over all sections
(each section gets fuel `len(lines) + 1`, which the totality theorem
shows is enough whenever `max_tokens ≥ 1`). -/
def generateChunks (sections : List Section) (maxTokens overlapTokens : Nat) : List ChunkPayload :=
  (sections.map (fun sec =>
    (chunkLoop sec.lines (sec.lines.map countTokens) sec.start_line maxTokens overlapTokens
      (sec.lines.length + 1) 0).getD [])).flatten

/-- `enumerate(..., start=1)` as used when inserting chunks: the ordinal
assigned to each generated chunk. -/
def withOrdinals (chunks : List ChunkPayload) : List (Nat × ChunkPayload) :=
  chunks.enum.map (fun p => (p.1 + 1, p.2))

/-! ## Email and PDF paragraph chunkers (services/ingest/email.py, pdf.py) -/

/-- Python `body.split("\n\n")` (left-to-right, non-overlapping). -/
def splitOnNN : List Char → List (List Char)
  | [] => [[]]
  | '\n' :: '\n' :: rest => [] :: splitOnNN rest
  | a :: rest =>
    match splitOnNN rest with
    | [] => [[]]
    | g :: gs => (a :: g) :: gs

/-- Paragraph split shared by the email and pdf chunkers. -/
def splitParagraphs (s : String) : List String :=
  (splitOnNN s.data).map String.mk

/-- The `while cursor < len(paragraphs)` loop of
`EmailIngestService._chunk_text`, yielding the chunk texts. -/
def emailChunkLoop (paras : List String) (tok : List Nat) (maxTokens overlapTokens : Nat) :
    Nat → Nat → Option (List String)
  | 0, _ => none
  | fuel + 1, cursor =>
    if cursor < paras.length then
      let acc := accumulateEnd tok maxTokens cursor 0
      let chunkText := pyStrip (String.intercalate "\n\n" ((paras.drop cursor).take (acc.1 - cursor)))
      let emitted : List String := if chunkText == "" then [] else [chunkText]
      if paras.length ≤ acc.1 then some emitted
      else
        let overlapLines := computeOverlap ((tok.drop cursor).take (acc.1 - cursor)) overlapTokens
        (emailChunkLoop paras tok maxTokens overlapTokens fuel
          (max (cursor + 1) (acc.1 - overlapLines))).map (emitted ++ ·)
    else some []

structure PDFChunkDraft where
  text : String
  page_no : Nat
  token_count : Nat
deriving Repr, DecidableEq

/-- Structural core of the pdf packing loop. -/
def pdfAccumulateGo (maxTokens cursor : Nat) : List Nat → Nat → Nat → Nat × Nat
  | [], endIdx, sum => (endIdx, sum)
  | t :: rest, endIdx, sum =>
    if sum + t ≤ maxTokens ∨ endIdx = cursor then
      pdfAccumulateGo maxTokens cursor rest (endIdx + 1) (sum + t)
    else (endIdx, sum)

/-- The inner packing loop of `PDFIngestService._chunk_page`:
`while end < total and (token_sum + token_counts[end] <= max_tokens or end == cursor)`. -/
def pdfAccumulate (tok : List Nat) (maxTokens cursor : Nat) (endIdx sum : Nat) : Nat × Nat :=
  pdfAccumulateGo maxTokens cursor (tok.drop endIdx) endIdx sum

/-! ### The S1 scenario input (claim C4) -/

/-- The scenario body (no frontmatter, so `post.content` is the text
itself and the metadata mapping is empty). -/
def mdBodyC4 : String := "# Title\n\nalpha beta gamma delta"

/-- `post.content.strip()` from `_load_markdown`. -/
def mdContentC4 : String := pyStrip mdBodyC4

/-- `_resolve_title({}, content, path)` for this file. -/
def mdTitleC4 : String := resolveTitle none mdContentC4 "note"

/-- `_split_sections(content.splitlines(), title)`. -/
def mdSectionsC4 : List Section := splitSections (splitLines mdContentC4) mdTitleC4

/-- The generated chunks for `max_tokens = 2`, `overlap_ratio = 0.5`. -/
def mdChunksC4 : List ChunkPayload := generateChunks mdSectionsC4 2 (overlapTokensOf 2 1 2)

section MarkdownScenarioProofs

/-- C4 counterexample: on the scenario body the second generated chunk
is the single 4-word line `"alpha beta gamma delta"` with
`token_count = 4`, so "each chunk having token_count equal to 2" is
false (the line-greedy accumulator cannot split inside a line). -/
theorem md_scenario_counterexample :
    mdChunksC4.map (fun c => c.token_count) = [2, 4] ∧
      ¬ (∀ c ∈ mdChunksC4, c.token_count = 2) := by
  refine ⟨by decide, by decide⟩

/-- C4 amended: the scenario resolves the title to `"Title"` and yields
exactly 2 chunks with consecutive ordinals 1 and 2; the first chunk is
the heading line with `token_count = 2`, while the second is the 4-word
body line with `token_count = 4` (a chunk made of a single line keeps
that line's full token count even beyond `max_tokens`). -/
theorem md_scenario_amended :
    mdTitleC4 = "Title" ∧
      (withOrdinals mdChunksC4).map (fun p => p.1) = [1, 2] ∧
      mdChunksC4.map (fun c => c.text) = ["# Title", "alpha beta gamma delta"] ∧
      mdChunksC4.map (fun c => c.token_count) = [2, 4] ∧
      mdChunksC4.map (fun c => (c.start_line, c.end_line)) = [(1, 1), (2, 3)] := by
  refine ⟨by decide, by decide, by decide, by decide, by decide⟩

end MarkdownScenarioProofs

/-- The `while cursor < total` loop of `PDFIngestService._chunk_page`. -/
def pdfChunkLoop (paras : List String) (tok : List Nat) (pageNo maxTokens overlapTokens : Nat) :
    Nat → Nat → Option (List PDFChunkDraft)
  | 0, _ => none
  | fuel + 1, cursor =>
    if cursor < paras.length then
      let acc := pdfAccumulate tok maxTokens cursor cursor 0
      let chunkText := pyStrip (String.intercalate "\n\n" ((paras.drop cursor).take (acc.1 - cursor)))
      let emitted : List PDFChunkDraft :=
        if chunkText == "" then [] else [⟨chunkText, pageNo, max acc.2 (countTokens chunkText)⟩]
      if paras.length ≤ acc.1 then some emitted
      else
        let overlap := computeOverlap ((tok.drop cursor).take (acc.1 - cursor)) overlapTokens
        (pdfChunkLoop paras tok pageNo maxTokens overlapTokens fuel
          (max (cursor + 1) (acc.1 - overlap))).map (emitted ++ ·)
    else some []

section ChunkerTerminationProofs

lemma accumulateEndGo_ge (m : Nat) (rem : List Nat) :
    ∀ e s, e ≤ (accumulateEndGo m rem e s).1 := by
  induction rem with
  | nil => intro e s; simp [accumulateEndGo]
  | cons t rest ih =>
    intro e s
    by_cases h : s < m
    · simp only [accumulateEndGo, if_pos h]
      have := ih (e + 1) (s + t)
      omega
    · simp [accumulateEndGo, h]

lemma accumulateEnd_progress (tok : List Nat) (m cursor : Nat)
    (hc : cursor < tok.length) (hm : 1 ≤ m) :
    cursor + 1 ≤ (accumulateEnd tok m cursor 0).1 := by
  unfold accumulateEnd
  cases hdrop : tok.drop cursor with
  | nil =>
    have hlen := List.length_drop cursor tok
    rw [hdrop] at hlen
    simp at hlen
    omega
  | cons t rest =>
    simp only [accumulateEndGo, if_pos (by omega : (0 : Nat) < m)]
    exact accumulateEndGo_ge m rest (cursor + 1) (0 + t)

lemma pdfAccumulateGo_ge (m c : Nat) (rem : List Nat) :
    ∀ e s, e ≤ (pdfAccumulateGo m c rem e s).1 := by
  induction rem with
  | nil => intro e s; simp [pdfAccumulateGo]
  | cons t rest ih =>
    intro e s
    by_cases h : s + t ≤ m ∨ e = c
    · simp only [pdfAccumulateGo, if_pos h]
      have := ih (e + 1) (s + t)
      omega
    · simp [pdfAccumulateGo, h]

lemma pdfAccumulate_progress (tok : List Nat) (m cursor : Nat)
    (hc : cursor < tok.length) :
    cursor + 1 ≤ (pdfAccumulate tok m cursor cursor 0).1 := by
  unfold pdfAccumulate
  cases hdrop : tok.drop cursor with
  | nil =>
    have hlen := List.length_drop cursor tok
    rw [hdrop] at hlen
    simp at hlen
    omega
  | cons t rest =>
    show cursor + 1 ≤ (if 0 + t ≤ m ∨ cursor = cursor then
        pdfAccumulateGo m cursor rest (cursor + 1) (0 + t) else (cursor, 0)).1
    rw [if_pos (Or.inr rfl)]
    exact pdfAccumulateGo_ge m cursor rest (cursor + 1) (0 + t)

lemma chunkLoop_total (lines : List String) (tok : List Nat) (secStart m o : Nat)
    (hm : 1 ≤ m) (htok : tok.length = lines.length) :
    ∀ fuel cursor, lines.length - cursor < fuel →
      ∃ cs, chunkLoop lines tok secStart m o fuel cursor = some cs ∧
        cs.length ≤ lines.length - cursor := by
  intro fuel
  induction fuel with
  | zero => intro cursor h; omega
  | succ fuel ih =>
    intro cursor hfuel
    by_cases hc : cursor < lines.length
    · have hprog : cursor + 1 ≤ (accumulateEnd tok m cursor 0).1 :=
        accumulateEnd_progress tok m cursor (by omega) hm
      rw [chunkLoop, if_pos hc]
      dsimp only
      by_cases hempty : ((((lines.drop cursor).take ((accumulateEnd tok m cursor 0).1 - cursor)).filter
          (fun l => !(pyStrip l == ""))).map pyRStrip).isEmpty
      · rw [if_pos hempty]
        obtain ⟨cs, hcs, hlen⟩ := ih (accumulateEnd tok m cursor 0).1 (by omega)
        exact ⟨cs, hcs, by omega⟩
      · rw [if_neg hempty]
        by_cases hend : lines.length ≤ (accumulateEnd tok m cursor 0).1
        · rw [if_pos hend]
          refine ⟨_, rfl, ?_⟩
          simp only [List.length_cons, List.length_nil]
          omega
        · rw [if_neg hend]
          obtain ⟨cs, hcs, hlen⟩ := ih
            (max (cursor + 1) ((accumulateEnd tok m cursor 0).1 -
              computeOverlap ((tok.drop cursor).take ((accumulateEnd tok m cursor 0).1 - cursor)) o))
            (by omega)
          rw [hcs]
          refine ⟨_, rfl, ?_⟩
          simp only [List.length_cons]
          omega
    · rw [chunkLoop, if_neg hc]
      exact ⟨[], rfl, by simp⟩

lemma generateChunks_cons (sec : Section) (rest : List Section) (m o : Nat) :
    generateChunks (sec :: rest) m o =
      (chunkLoop sec.lines (sec.lines.map countTokens) sec.start_line m o
        (sec.lines.length + 1) 0).getD [] ++ generateChunks rest m o := by
  simp [generateChunks]

lemma generateChunks_length (sections : List Section) (m o : Nat) (hm : 1 ≤ m) :
    (generateChunks sections m o).length ≤ (sections.map (fun s => s.lines.length)).sum := by
  induction sections with
  | nil => simp [generateChunks]
  | cons sec rest ih =>
    rw [generateChunks_cons]
    obtain ⟨cs, hcs, hlen⟩ := chunkLoop_total sec.lines (sec.lines.map countTokens)
      sec.start_line m o hm (by simp) (sec.lines.length + 1) 0 (by omega)
    rw [hcs]
    simp only [Option.getD_some, List.length_append, List.map_cons, List.sum_cons]
    omega

lemma emailChunkLoop_total (paras : List String) (tok : List Nat) (m o : Nat)
    (hm : 1 ≤ m) (htok : tok.length = paras.length) :
    ∀ fuel cursor, paras.length - cursor < fuel →
      ∃ cs, emailChunkLoop paras tok m o fuel cursor = some cs ∧
        cs.length ≤ paras.length - cursor := by
  intro fuel
  induction fuel with
  | zero => intro cursor h; omega
  | succ fuel ih =>
    intro cursor hfuel
    by_cases hc : cursor < paras.length
    · have hprog : cursor + 1 ≤ (accumulateEnd tok m cursor 0).1 :=
        accumulateEnd_progress tok m cursor (by omega) hm
      rw [emailChunkLoop, if_pos hc]
      dsimp only
      by_cases hend : paras.length ≤ (accumulateEnd tok m cursor 0).1
      · rw [if_pos hend]
        refine ⟨_, rfl, ?_⟩
        split
        · simp only [List.length_nil]
          omega
        · simp only [List.length_cons, List.length_nil]
          omega
      · rw [if_neg hend]
        obtain ⟨cs, hcs, hlen⟩ := ih
          (max (cursor + 1) ((accumulateEnd tok m cursor 0).1 -
            computeOverlap ((tok.drop cursor).take ((accumulateEnd tok m cursor 0).1 - cursor)) o))
          (by omega)
        rw [hcs]
        refine ⟨_, rfl, ?_⟩
        simp only [List.length_append]
        split
        · simp only [List.length_nil]
          omega
        · simp only [List.length_cons, List.length_nil]
          omega
    · rw [emailChunkLoop, if_neg hc]
      exact ⟨[], rfl, by simp⟩

lemma pdfChunkLoop_total (paras : List String) (tok : List Nat) (page m o : Nat)
    (htok : tok.length = paras.length) :
    ∀ fuel cursor, paras.length - cursor < fuel →
      ∃ cs, pdfChunkLoop paras tok page m o fuel cursor = some cs ∧
        cs.length ≤ paras.length - cursor := by
  intro fuel
  induction fuel with
  | zero => intro cursor h; omega
  | succ fuel ih =>
    intro cursor hfuel
    by_cases hc : cursor < paras.length
    · have hprog : cursor + 1 ≤ (pdfAccumulate tok m cursor cursor 0).1 :=
        pdfAccumulate_progress tok m cursor (by omega)
      rw [pdfChunkLoop, if_pos hc]
      dsimp only
      by_cases hend : paras.length ≤ (pdfAccumulate tok m cursor cursor 0).1
      · rw [if_pos hend]
        refine ⟨_, rfl, ?_⟩
        split
        · simp only [List.length_nil]
          omega
        · simp only [List.length_cons, List.length_nil]
          omega
      · rw [if_neg hend]
        obtain ⟨cs, hcs, hlen⟩ := ih
          (max (cursor + 1) ((pdfAccumulate tok m cursor cursor 0).1 -
            computeOverlap ((tok.drop cursor).take ((pdfAccumulate tok m cursor cursor 0).1 - cursor)) o))
          (by omega)
        rw [hcs]
        refine ⟨_, rfl, ?_⟩
        simp only [List.length_append]
        split
        · simp only [List.length_nil]
          omega
        · simp only [List.length_cons, List.length_nil]
          omega
    · rw [pdfChunkLoop, if_neg hc]
      exact ⟨[], rfl, by simp⟩

/-- C9: for `max_tokens ≥ 1` every chunker loop makes progress of at
least one line (paragraph) per iteration, so fuel `total + 1` always
yields a result and the number of emitted chunks is bounded by the
number of input lines; the markdown generator over all sections is
bounded by the total section line count, and the pdf loop needs no
`max_tokens` hypothesis because its packing loop always consumes the
first paragraph of the window. -/
theorem chunkers_terminate_with_progress :
    (∀ (lines : List String) (tok : List Nat) (secStart m o cursor fuel : Nat),
      1 ≤ m → tok.length = lines.length → lines.length - cursor < fuel →
      ∃ cs, chunkLoop lines tok secStart m o fuel cursor = some cs ∧
        cs.length ≤ lines.length - cursor) ∧
    (∀ (sections : List Section) (m o : Nat), 1 ≤ m →
      (generateChunks sections m o).length ≤ (sections.map (fun s => s.lines.length)).sum) ∧
    (∀ (paras : List String) (tok : List Nat) (m o cursor fuel : Nat),
      1 ≤ m → tok.length = paras.length → paras.length - cursor < fuel →
      ∃ cs, emailChunkLoop paras tok m o fuel cursor = some cs ∧
        cs.length ≤ paras.length - cursor) ∧
    (∀ (paras : List String) (tok : List Nat) (page m o cursor fuel : Nat),
      tok.length = paras.length → paras.length - cursor < fuel →
      ∃ cs, pdfChunkLoop paras tok page m o fuel cursor = some cs ∧
        cs.length ≤ paras.length - cursor) := by
  refine ⟨?_, ?_, ?_, ?_⟩
  · intro lines tok secStart m o cursor fuel hm htok hfuel
    exact chunkLoop_total lines tok secStart m o hm htok fuel cursor hfuel
  · intro sections m o hm
    exact generateChunks_length sections m o hm
  · intro paras tok m o cursor fuel hm htok hfuel
    exact emailChunkLoop_total paras tok m o hm htok fuel cursor hfuel
  · intro paras tok page m o cursor fuel htok hfuel
    exact pdfChunkLoop_total paras tok page m o htok fuel cursor hfuel

/-- Witness for `chunkers_terminate_with_progress` on a one-line
section. -/
theorem chunkers_terminate_with_progress_witness :
    ∃ cs, chunkLoop ["alpha beta"] [2] 1 2 1 2 0 = some cs ∧ cs.length ≤ 1 - 0 :=
  chunkers_terminate_with_progress.1 ["alpha beta"] [2] 1 2 1 0 2
    (by decide) (by decide) (by decide)

end ChunkerTerminationProofs

/-! ## Embedding client (services/index/embed.py)

`EmbeddingService.embed_texts` / `_embed_batch`.  The HTTP round trip is
an oracle `rpc : List String → EmbedResponse`; the accepted response
shapes and the element values (numeric or not — floats carry no
arithmetic here, so numbers are `Int`) are explicit data.  The tenacity
retry decorator re-invokes the same deterministic call and re-raises the
same error, so it is identity on this model. -/

deriving instance DecidableEq for Except

/-- A JSON element of a returned vector: numeric or not. -/
inductive EVal
  | num (x : Int)
  | other
deriving Repr, DecidableEq

/-- An entry of the `data` list: a bare vector, an object with an
`embedding` field, or anything else. -/
inductive EItem
  | vec (v : List EVal)
  | obj (v : List EVal)
  | bad
deriving Repr, DecidableEq

/-- The embedding RPC outcome: transport failure or one of the payload
shapes. -/
inductive EmbedResponse
  | transportError
  | embeddings (vs : List (List EVal))
  | embedding (v : List EVal)
  | dataShape (items : List EItem)
  | malformed
deriving Repr, DecidableEq

/-- The shape dispatch of `_embed_batch` (`raw_embeddings`): `embeddings`
as is, a single `embedding` wrapped, `data` items collected (skipping
unusable entries, `None` if nothing was collected). -/
def extractRaw : EmbedResponse → Option (List (List EVal))
  | .embeddings vs => some vs
  | .embedding v => some [v]
  | .dataShape items =>
    let collected := items.filterMap (fun it =>
      match it with
      | .vec v => some v
      | .obj v => some v
      | .bad => none)
    if collected.isEmpty then none else some collected
  | .malformed => none
  | .transportError => none

/-- `[float(value) for value in vector]`: fails at the first non-numeric
element. -/
def toFloats : List EVal → Except String (List Int)
  | [] => .ok []
  | .num x :: rest => (toFloats rest).map (x :: ·)
  | .other :: _ => .error "Embedding contains non-numeric values."

/-- The per-vector loop of `_embed_batch`: convert to floats, then check
the dimension (skipped when `expected_dim` is falsy, i.e. 0). -/
def convertVectors (dim : Nat) : List (List EVal) → Except String (List (List Int))
  | [] => .ok []
  | v :: rest =>
    match toFloats v with
    | .error e => .error e
    | .ok floats =>
      if dim ≠ 0 ∧ floats.length ≠ dim then .error "Embedding dimension mismatch"
      else (convertVectors dim rest).map (floats :: ·)

/-- `EmbeddingService._embed_batch` for one batch and its response. -/
def embedBatch (dim : Nat) (resp : EmbedResponse) (batch : List String) :
    Except String (List (List Int)) :=
  if batch.isEmpty then .ok []
  else if resp = .transportError then .error "Ollama embedding request failed."
  else
    match extractRaw resp with
    | none => .error "Unexpected embedding payload format."
    | some raws =>
      match convertVectors dim raws with
      | .error e => .error e
      | .ok vectors =>
        if vectors.length ≠ batch.length then .error "Embedding count mismatch"
        else .ok vectors

/-- Batch splitting: models the `inputs[offset : offset + batch_size]`
slices of `embed_texts` (`self.batch_size = max(1, batch_size)`); the
counter is the free capacity of the current batch. -/
def toBatchesGo (b : Nat) : List String → Nat → List String → List (List String)
  | [], _, cur => if cur.isEmpty then [] else [cur.reverse]
  | x :: rest, 0, cur => cur.reverse :: toBatchesGo b rest (b - 1) [x]
  | x :: rest, k + 1, cur => toBatchesGo b rest k (x :: cur)

/-- The consecutive batches of `embed_texts`. -/
def toBatches (bs : Nat) (xs : List String) : List (List String) :=
  match xs with
  | [] => []
  | x :: rest => toBatchesGo (max 1 bs) rest (max 1 bs - 1) [x]

/-- The `for offset in range(...)` loop of `embed_texts`
(`vectors.extend(self._embed_batch(batch))`): the first failing batch
aborts with its error. -/
def embedLoop (rpc : List String → EmbedResponse) (dim : Nat) :
    List (List String) → Except String (List (List Int))
  | [] => .ok []
  | batch :: rest =>
    match embedBatch dim (rpc batch) batch with
    | .error e => .error e
    | .ok vs =>
      match embedLoop rpc dim rest with
      | .error e => .error e
      | .ok more => .ok (vs ++ more)

/-- `EmbeddingService.embed_texts`: empty input short-circuits, else the
per-batch vectors are concatenated in batch order. -/
def embedTexts (rpc : List String → EmbedResponse) (dim bs : Nat) (texts : List String) :
    Except String (List (List Int)) :=
  if texts.isEmpty then .ok []
  else embedLoop rpc dim (toBatches bs texts)

section EmbeddingProofs

lemma toBatchesGo_flatten (b : Nat) (rest : List String) :
    ∀ k cur, (toBatchesGo b rest k cur).flatten = cur.reverse ++ rest := by
  induction rest with
  | nil =>
    intro k cur
    by_cases hcur : cur.isEmpty
    · have : cur = [] := by
        cases cur
        · rfl
        · simp [List.isEmpty] at hcur
      simp [toBatchesGo, hcur, this]
    · simp [toBatchesGo, hcur]
  | cons x rs ih =>
    intro k cur
    cases k with
    | zero => simp [toBatchesGo, ih]
    | succ k => simp [toBatchesGo, ih]

lemma toBatches_flatten (bs : Nat) (xs : List String) :
    (toBatches bs xs).flatten = xs := by
  cases xs with
  | nil => rfl
  | cons x rest => simp [toBatches, toBatchesGo_flatten]

lemma embedLoop_ok (rpc : List String → EmbedResponse) (dim : Nat) (f : String → List Int) :
    ∀ batches : List (List String),
      (∀ b ∈ batches, embedBatch dim (rpc b) b = Except.ok (b.map f)) →
      embedLoop rpc dim batches = Except.ok (batches.flatten.map f) := by
  intro batches
  induction batches with
  | nil => intro hgood; simp [embedLoop]
  | cons b rest ih =>
    intro hgood
    have hb := hgood b (by simp)
    rw [embedLoop, hb, ih (fun x hx => hgood x (by simp [hx]))]
    simp

lemma embedLoop_ok_elim (rpc : List String → EmbedResponse) (dim : Nat) :
    ∀ (batches : List (List String)) (res : List (List Int)),
      embedLoop rpc dim batches = Except.ok res →
      ∀ b ∈ batches, ∃ vs, embedBatch dim (rpc b) b = Except.ok vs := by
  intro batches
  induction batches with
  | nil => intro res hok b hb; simp at hb
  | cons b0 rest ih =>
    intro res hok b hb
    rw [embedLoop] at hok
    cases hcall : embedBatch dim (rpc b0) b0 with
    | error e => rw [hcall] at hok; simp at hok
    | ok vs =>
      rw [hcall] at hok
      rcases List.mem_cons.mp hb with hb | hb
      · exact ⟨vs, hb ▸ hcall⟩
      · cases hrest : embedLoop rpc dim rest with
        | error e => rw [hrest] at hok; simp at hok
        | ok more => exact ih more hrest b hb

lemma toFloats_ok (v : List EVal) :
    ∀ fs, toFloats v = Except.ok fs → fs.length = v.length ∧ ¬ EVal.other ∈ v := by
  induction v with
  | nil => intro fs h; simp [toFloats] at h; simp [← h]
  | cons e rest ih =>
    intro fs h
    cases e with
    | num x =>
      cases hrest : toFloats rest with
      | error err => rw [toFloats, hrest] at h; simp [Except.map] at h
      | ok frest =>
        rw [toFloats, hrest] at h
        simp only [Except.map, Except.ok.injEq] at h
        obtain ⟨hlen, hmem⟩ := ih frest hrest
        subst h
        constructor
        · simp [hlen]
        · simp [hmem]
    | other => simp [toFloats] at h

lemma convertVectors_ok (dim : Nat) (raws : List (List EVal)) :
    ∀ vs, convertVectors dim raws = Except.ok vs →
      vs.length = raws.length ∧
        ∀ v ∈ raws, ¬ EVal.other ∈ v ∧ (dim ≠ 0 → v.length = dim) := by
  induction raws with
  | nil => intro vs h; simp [convertVectors] at h; simp [← h]
  | cons v rest ih =>
    intro vs h
    rw [convertVectors] at h
    cases hf : toFloats v with
    | error e => rw [hf] at h; simp at h
    | ok floats =>
      rw [hf] at h
      dsimp only at h
      obtain ⟨hflen, hfmem⟩ := toFloats_ok v floats hf
      by_cases hdim : dim ≠ 0 ∧ floats.length ≠ dim
      · rw [if_pos hdim] at h
        simp at h
      · rw [if_neg hdim] at h
        cases hrest : convertVectors dim rest with
        | error e => rw [hrest] at h; simp [Except.map] at h
        | ok vrest =>
          rw [hrest] at h
          simp only [Except.map, Except.ok.injEq] at h
          obtain ⟨hlen, hmem⟩ := ih vrest hrest
          subst h
          refine ⟨by simp [hlen], ?_⟩
          intro w hw
          rcases List.mem_cons.mp hw with hw | hw
          · subst hw
            exact ⟨hfmem, fun hd => by omega⟩
          · exact hmem w hw

/-- C5: under the assumption that every batch RPC yields, after shape
extraction and conversion, exactly one valid vector per input in input
order (`embedBatch` succeeds with `batch.map f`), `embed_texts` returns
one vector per input with `result[i]` corresponding to `input[i]` across
batch boundaries; and a successful `_embed_batch` certifies that the
payload had no non-numeric element, no vector of the wrong dimension,
and exactly one vector per input — so any of those three defects forces
an `EmbeddingError` —; finally a successful `embed_texts` requires every
one of its batches to have succeeded. -/
theorem embed_texts_contract :
    (∀ (rpc : List String → EmbedResponse) (dim bs : Nat) (texts : List String)
        (f : String → List Int),
      (∀ b ∈ toBatches bs texts, embedBatch dim (rpc b) b = Except.ok (b.map f)) →
      embedTexts rpc dim bs texts = Except.ok (texts.map f)) ∧
    (∀ (dim : Nat) (resp : EmbedResponse) (batch : List String) (vs : List (List Int)),
      ¬ batch.isEmpty → embedBatch dim resp batch = Except.ok vs →
      ∃ raws, extractRaw resp = some raws ∧ raws.length = batch.length ∧
        ∀ v ∈ raws, ¬ EVal.other ∈ v ∧ (dim ≠ 0 → v.length = dim)) ∧
    (∀ (rpc : List String → EmbedResponse) (dim bs : Nat) (texts : List String)
        (res : List (List Int)),
      embedTexts rpc dim bs texts = Except.ok res →
      ∀ b ∈ toBatches bs texts, ∃ vs, embedBatch dim (rpc b) b = Except.ok vs) := by
  refine ⟨?_, ?_, ?_⟩
  · intro rpc dim bs texts f hgood
    unfold embedTexts
    by_cases hempty : texts.isEmpty
    · have htexts : texts = [] := by
        cases texts
        · rfl
        · simp [List.isEmpty] at hempty
      simp [hempty, htexts]
    · rw [if_neg hempty, embedLoop_ok rpc dim f _ hgood, toBatches_flatten]
  · intro dim resp batch vs hbatch hok
    rw [embedBatch, if_neg hbatch] at hok
    by_cases htrans : resp = .transportError
    · rw [if_pos htrans] at hok
      simp at hok
    · rw [if_neg htrans] at hok
      cases hraw : extractRaw resp with
      | none => rw [hraw] at hok; simp at hok
      | some raws =>
        rw [hraw] at hok
        dsimp only at hok
        cases hconv : convertVectors dim raws with
        | error e => rw [hconv] at hok; simp at hok
        | ok vecs =>
          rw [hconv] at hok
          dsimp only at hok
          by_cases hcount : vecs.length ≠ batch.length
          · rw [if_pos hcount] at hok
            simp at hok
          · rw [if_neg hcount] at hok
            simp only [Except.ok.injEq] at hok
            obtain ⟨hlen, hval⟩ := convertVectors_ok dim raws vecs hconv
            exact ⟨raws, rfl, by omega, hval⟩
  · intro rpc dim bs texts res hok
    unfold embedTexts at hok
    by_cases hempty : texts.isEmpty
    · have htexts : texts = [] := by
        cases texts
        · rfl
        · simp [List.isEmpty] at hempty
      subst htexts
      intro b hb
      simp [toBatches] at hb
    · rw [if_neg hempty] at hok
      exact embedLoop_ok_elim rpc dim _ res hok

/-- Witness for `embed_texts_contract` on three texts with batch size 2
and dimension 1. -/
theorem embed_texts_contract_witness :
    embedTexts (fun batch => EmbedResponse.embeddings (batch.map (fun _ => [EVal.num 7])))
        1 2 ["a", "b", "c"] =
      Except.ok (["a", "b", "c"].map (fun _ => [(7 : Int)])) :=
  embed_texts_contract.1
    (fun batch => EmbedResponse.embeddings (batch.map (fun _ => [EVal.num 7])))
    1 2 ["a", "b", "c"] (fun _ => [(7 : Int)]) (by decide)

end EmbeddingProofs

/-! ## Run store (services/retrieval/store.py)

`RetrievalStore`: the relational tables are lists of rows; UUIDs are
`Nat`, timestamps are `Nat`, `session.get` by primary key is a first
lookup, the `ORDER BY rank` / `ORDER BY started_at DESC` queries are
stable sorts, and the `ondelete` behaviour of the schema (models/db.py:
`SET NULL` on `qa_contexts.chunk_id`) is modelled by `deleteChunk`.
The stored `answer_json` is opaque for these properties, so it is an
uninterpreted `String`; `ChatAnswer.model_validate` on a stored answer
is the identity on that payload. -/

structure QARunRow where
  id : Nat
  question : String
  mode : String
  llm_version : String
  prompt_version : String
  template_hash : String
  started_at : Nat
  latency_ms : Option Int
  abstained : Bool
deriving Repr, DecidableEq

structure QAContextRow where
  run_id : Nat
  chunk_id : Option Int
  rank : Nat
  score_bm25 : Option Int
  score_embed : Option Int
  score_rerank : Option Int
  rationale : String
deriving Repr, DecidableEq

structure ChunkRow where
  id : Int
  document_id : Int
  text : String
  start_line : Option Int
  end_line : Option Int
  page_no : Option Int
deriving Repr, DecidableEq

structure DocumentRow where
  id : Int
  path : String
deriving Repr, DecidableEq

structure DB where
  runs : List QARunRow
  answers : List (Nat × String)
  contexts : List QAContextRow
  chunks : List ChunkRow
  documents : List DocumentRow
deriving Repr, DecidableEq

structure ContextSnippet where
  document_id : Int
  chunk_id : Int
  content : String
  citation : String
  rationale : String
  score_bm25 : Option Int
  score_embed : Option Int
deriving Repr, DecidableEq

structure ReplayRecord where
  run_id : Nat
  question : String
  mode : String
  llm_version : String
  prompt_version : String
  template_hash : String
  latency_ms : Option Int
  abstained : Bool
  answer : String
  snippets : List ContextSnippet
deriving Repr, DecidableEq

structure RunSummary where
  run_id : Nat
  question : String
  mode : String
  started_at : Nat
  latency_ms : Option Int
  abstained : Bool
deriving Repr, DecidableEq

/-- `session.get(QARun, run_id)`. -/
def findRun (db : DB) (rid : Nat) : Option QARunRow :=
  db.runs.find? (fun r => r.id == rid)

/-- `session.get(QAAnswer, run_id)`. -/
def findAnswer (db : DB) (rid : Nat) : Option (Nat × String) :=
  db.answers.find? (fun a => a.1 == rid)

/-- Chunk lookup for the outer join. -/
def findChunk (db : DB) (cid : Int) : Option ChunkRow :=
  db.chunks.find? (fun c => c.id == cid)

/-- Document lookup for the outer join. -/
def findDocument (db : DB) (did : Int) : Option DocumentRow :=
  db.documents.find? (fun d => d.id == did)

/-- `RetrievalStore.write_contexts`: insert one `QAContext` row per
result, ranked `1..N` by `enumerate(contexts, start=1)` in input order
(`score_rerank=None`, `rationale = context.rationale or ""`). -/
def writeContexts (db : DB) (rid : Nat) (results : List RetrievalResult) : DB :=
  ⟨db.runs, db.answers,
    db.contexts ++ results.enum.map (fun p =>
      ⟨rid, some p.2.chunk_id, p.1 + 1, p.2.score_bm25, p.2.score_embed, none,
        p.2.rationale.getD ""⟩),
    db.chunks, db.documents⟩

/-- `RetrievalStore.write_answer` (`session.merge`: upsert by run id). -/
def writeAnswer (db : DB) (rid : Nat) (ans : String) : DB :=
  ⟨db.runs, db.answers.filter (fun a => !(a.1 == rid)) ++ [(rid, ans)],
    db.contexts, db.chunks, db.documents⟩

/-- Deleting a chunk row: the schema's `ondelete="SET NULL"` nulls the
`chunk_id` of every referencing context. -/
def deleteChunk (db : DB) (cid : Int) : DB :=
  ⟨db.runs, db.answers,
    db.contexts.map (fun c =>
      if c.chunk_id == some cid then
        ⟨c.run_id, none, c.rank, c.score_bm25, c.score_embed, c.score_rerank, c.rationale⟩
      else c),
    db.chunks.filter (fun c => !(c.id == cid)), db.documents⟩

/-- The contexts of one run (`WHERE QAContext.run_id == run_id`). -/
def ctxsOf (db : DB) (rid : Nat) : List QAContextRow :=
  db.contexts.filter (fun c => c.run_id == rid)

/-- `ORDER BY QAContext.rank` as a stable sort. -/
def sortByRank (ctxs : List QAContextRow) : List QAContextRow :=
  ctxs.insertionSort (fun a b => a.rank ≤ b.rank)

/-- `RetrievalStore._build_citation` (same truthy line/page logic as the
context builder, `"unknown"` for a missing document). -/
def buildCitation (chunk : ChunkRow) (doc : Option DocumentRow) : String :=
  let path := match doc with | some d => basename d.path | none => "unknown"
  if truthy chunk.start_line && truthy chunk.end_line then
    path ++ ":L" ++ toString (chunk.start_line.getD 0) ++ "-L" ++ toString (chunk.end_line.getD 0)
  else if truthy chunk.page_no then
    path ++ ":p." ++ toString (chunk.page_no.getD 0)
  else path

/-- One row of the replay join: `None` when the context's chunk link is
null or dangling (`if chunk is None: continue`), else the rebuilt
snippet. -/
def resolveSnippet (db : DB) (ctx : QAContextRow) : Option ContextSnippet :=
  match ctx.chunk_id with
  | none => none
  | some cid =>
    match findChunk db cid with
    | none => none
    | some chunk =>
      some ⟨chunk.document_id, chunk.id, chunk.text,
        buildCitation chunk (findDocument db chunk.document_id),
        ctx.rationale, ctx.score_bm25, ctx.score_embed⟩

/-- `RetrievalStore.replay`. -/
def replay (db : DB) (rid : Nat) : Option ReplayRecord :=
  match findRun db rid with
  | none => none
  | some run =>
    match findAnswer db rid with
    | none => none
    | some ans =>
      some ⟨run.id, run.question, run.mode, run.llm_version, run.prompt_version,
        run.template_hash, run.latency_ms, run.abstained, ans.2,
        (sortByRank (ctxsOf db rid)).filterMap (resolveSnippet db)⟩

/-- `RetrievalStore.list_runs`: summaries ordered by `started_at`
descending, limited. -/
def listRuns (db : DB) (limit : Nat) : List RunSummary :=
  ((db.runs.insertionSort (fun a b => b.started_at ≤ a.started_at)).take limit).map
    (fun r => ⟨r.id, r.question, r.mode, r.started_at, r.latency_ms, r.abstained⟩)

/-! ### Concrete S5-style scenario: one run over chunks 10 and 20 -/

/-- A retrieval result for chunk 10 / 20 of document 1. -/
def exResult (cid : Int) : RetrievalResult :=
  ⟨cid, 1, "/notes/d.md", "D", "text of the chunk", some 1, some 2, none, some 5,
    some 3, none, none, some 0, none, some "BM25=3.000"⟩

/-- The store after creating run 5, writing contexts for chunks 10 and
20, and writing the answer. -/
def dbEx : DB :=
  writeAnswer
    (writeContexts
      ⟨[⟨5, "what is d", "synthesize", "llama", "v1", "h", 1000, some 123, false⟩],
        [], [],
        [⟨10, 1, "alpha", some 1, some 2, none⟩, ⟨20, 1, "beta", some 3, some 4, none⟩],
        [⟨1, "/notes/d.md"⟩]⟩
      5 [exResult 10, exResult 20])
    5 "answer-json"

section StoreProofs

lemma writeContexts_rows (rid : Nat) (l : List RetrievalResult) :
    ∀ n : Nat,
      (((List.enumFrom n l).map (fun p => (⟨rid, some p.2.chunk_id, p.1 + 1, p.2.score_bm25,
          p.2.score_embed, none, p.2.rationale.getD ""⟩ : QAContextRow))).map (fun c => c.rank) =
        List.range' (n + 1) l.length) ∧
      (((List.enumFrom n l).map (fun p => (⟨rid, some p.2.chunk_id, p.1 + 1, p.2.score_bm25,
          p.2.score_embed, none, p.2.rationale.getD ""⟩ : QAContextRow))).map (fun c => c.chunk_id) =
        l.map (fun r => some r.chunk_id)) := by
  induction l with
  | nil => intro n; simp
  | cons r rest ih =>
    intro n
    obtain ⟨ih1, ih2⟩ := ih (n + 1)
    constructor
    · simp only [List.enumFrom, List.map_cons, List.length_cons, List.range'_succ]
      rw [ih1]
    · simp only [List.enumFrom, List.map_cons]
      rw [ih2]

lemma range_map_add_one (n : Nat) : (List.range n).map (fun i => i + 1) = List.range' 1 n := by
  induction n with
  | zero => rfl
  | succ k ih =>
    rw [List.range_succ, List.map_append, ih, List.range'_concat]
    simp [Nat.add_comm]

/-- C6: `write_contexts` appends one context row per result with ranks
`1..N` dense in input order, and `replay` rebuilds the record from the
stored rows: it returns the stored question with the snippets obtained
from the rank-sorted contexts of the run, where every context whose
chunk link is null or dangling is omitted; on the concrete scenario the
run with contexts for chunks 10 and 20 replays to two snippets, and
after deleting chunk 20 it replays to one snippet while the run stays
retrievable. -/
theorem write_contexts_and_replay (db : DB) (rid : Nat) (results : List RetrievalResult)
    (run : QARunRow) (ans : Nat × String)
    (hrun : findRun db rid = some run) (hans : findAnswer db rid = some ans) :
    (((writeContexts db rid results).contexts.drop db.contexts.length).map
        (fun c => c.rank) = (List.range results.length).map (fun i => i + 1)) ∧
    (((writeContexts db rid results).contexts.drop db.contexts.length).map
        (fun c => c.chunk_id) = results.map (fun r => some r.chunk_id)) ∧
    (∃ rec, replay db rid = some rec ∧ rec.question = run.question ∧
      rec.answer = ans.2 ∧
      rec.snippets = (sortByRank (ctxsOf db rid)).filterMap (resolveSnippet db)) ∧
    ((replay dbEx 5).map (fun rec => rec.snippets.map (fun s => s.chunk_id)) =
      some [10, 20]) ∧
    ((replay (deleteChunk dbEx 20) 5).map (fun rec => rec.snippets.map
      (fun s => s.chunk_id)) = some [10]) := by
  refine ⟨?_, ?_, ?_, by decide, by decide⟩
  · simp only [writeContexts, List.enum]
    rw [List.drop_left, (writeContexts_rows rid results 0).1, range_map_add_one]
  · simp only [writeContexts, List.enum]
    rw [List.drop_left, (writeContexts_rows rid results 0).2]
  · rw [replay, hrun, hans]
    exact ⟨_, rfl, rfl, rfl, rfl⟩

/-- Witness for `write_contexts_and_replay` on the scenario store. -/
theorem write_contexts_and_replay_witness :
    ((writeContexts dbEx 5 []).contexts.drop dbEx.contexts.length).map
        (fun c => c.rank) = (List.range (0 : Nat)).map (fun i => i + 1) :=
  (write_contexts_and_replay dbEx 5 []
    ⟨5, "what is d", "synthesize", "llama", "v1", "h", 1000, some 123, false⟩
    (5, "answer-json") (by decide) (by decide)).1

/-- C10: `replay` is `None` not only for an unknown run id but also for
a run that exists without a stored `QAAnswer` row, while `list_runs`
still reports that run (whenever the limit covers the table). -/
theorem replay_requires_answer :
    (∀ (db : DB) (rid : Nat), findRun db rid = none → replay db rid = none) ∧
    (∀ (db : DB) (rid : Nat) (run : QARunRow),
      findRun db rid = some run → findAnswer db rid = none → replay db rid = none) ∧
    (∀ (db : DB) (limit : Nat) (run : QARunRow),
      run ∈ db.runs → db.runs.length ≤ limit →
      run.id ∈ (listRuns db limit).map (fun s => s.run_id)) := by
  refine ⟨?_, ?_, ?_⟩
  · intro db rid h
    rw [replay, h]
  · intro db rid run hrun hans
    rw [replay, hrun, hans]
  · intro db limit run hmem hlim
    unfold listRuns
    have hperm : (db.runs.insertionSort (fun a b => b.started_at ≤ a.started_at)).Perm db.runs :=
      List.perm_insertionSort _ _
    have hsorted : run ∈ db.runs.insertionSort (fun a b => b.started_at ≤ a.started_at) :=
      hperm.mem_iff.mpr hmem
    have hlen : (db.runs.insertionSort (fun a b => b.started_at ≤ a.started_at)).length ≤ limit := by
      rw [hperm.length_eq]
      exact hlim
    rw [List.take_of_length_le hlen, List.map_map]
    exact List.mem_map.mpr ⟨run, hsorted, rfl⟩

/-- Witness for `replay_requires_answer`: a pending run (no answer row)
is not replayable but is listed. -/
theorem replay_requires_answer_witness :
    replay ⟨[⟨5, "q", "synthesize", "llama", "v1", "h", 1000, none, false⟩], [], [], [], []⟩ 5 =
      none :=
  replay_requires_answer.2.1
    ⟨[⟨5, "q", "synthesize", "llama", "v1", "h", 1000, none, false⟩], [], [], [], []⟩ 5
    ⟨5, "q", "synthesize", "llama", "v1", "h", 1000, none, false⟩ (by decide) (by decide)

end StoreProofs

/-! ## Markdown ingestion (services/ingest/markdown.py, `_ingest_file`)

The per-file pipeline as a state transition on the relational store plus
the lexical index, together with an event trace recording in which order
the chunker, the embedding client, the transactional write and the
lexical reconciliation run.  The sha256 of the file bytes is an input
(hashing is a stdlib call on the raw bytes); the embedding client is an
oracle.  Modelled document fields are the ones the skip decision and the
writes touch. -/

inductive IngestEvent
  | chunked (n : Nat)
  | embedded (n : Nat)
  | dbWrite
  | lexRemoved (ids : List Int)
  | lexAdded (n : Nat)
deriving Repr, DecidableEq

structure IngestDocRow where
  id : Int
  path : String
  title : String
  sha256 : String
  size : Nat
deriving Repr, DecidableEq

structure IngestChunkRow where
  id : Int
  document_id : Int
  ordinal : Nat
  text : String
  start_line : Option Nat
  end_line : Option Nat
  page_no : Option Nat
  token_count : Option Nat
  embedding : List Int
deriving Repr, DecidableEq

structure LexRecord where
  chunk_id : Int
  document_id : Int
  path : String
  title : String
  content : String
  start_line : Option Nat
  end_line : Option Nat
deriving Repr, DecidableEq

structure IngestStore where
  documents : List IngestDocRow
  chunks : List IngestChunkRow
  lexical : List LexRecord
  nextId : Int
deriving Repr, DecidableEq

/-- The chunk rows inserted in ordinal order (ids from the row-id
allocator, one embedding per chunk). -/
def mkChunkRows (docId firstId : Int) (chunks : List ChunkPayload)
    (embeddings : List (List Int)) : List IngestChunkRow :=
  ((withOrdinals chunks).zip embeddings).map (fun p =>
    ⟨firstId + (p.1.1 : Int) - 1, docId, p.1.1, p.1.2.text, some p.1.2.start_line,
      some p.1.2.end_line, none, some p.1.2.token_count, p.2⟩)

/-- The `bm25_payloads` built for the new chunk rows. -/
def lexOf (doc : IngestDocRow) (rows : List IngestChunkRow) : List LexRecord :=
  rows.map (fun c => ⟨c.id, doc.id, doc.path, doc.title, c.text, c.start_line, c.end_line⟩)

/-- `MarkdownIngestService._ingest_file`: load and strip the body (empty
⇒ skip), split sections, generate chunks (none ⇒ skip), embed the chunk
texts (count mismatch ⇒ `RuntimeError`, the file is skipped with no
writes), then inside the transaction look up the document by path: an
existing document with the same stored sha256 is skipped; otherwise the
document row is inserted or overwritten, old chunks deleted, new chunks
inserted, and after commit the lexical index drops the removed chunk ids
and adds the new records. -/
def ingestMarkdownFile (st : IngestStore) (embed : List String → List (List Int))
    (path body : String) (metaTitle : Option String) (stem sha : String) (size : Nat)
    (maxTokens overlapTokens : Nat) : IngestStore × List IngestEvent :=
  let content := pyStrip body
  if content == "" then (st, [])
  else
    let lines := splitLines content
    let title := resolveTitle metaTitle content stem
    let sections := splitSections lines title
    let chunks := generateChunks sections maxTokens overlapTokens
    if chunks.isEmpty then (st, [.chunked 0])
    else
      let embeddings := embed (chunks.map (fun c => c.text))
      let events : List IngestEvent := [.chunked chunks.length, .embedded chunks.length]
      if embeddings.length ≠ chunks.length then (st, events)
      else
        match st.documents.find? (fun d => d.path == path) with
        | some existing =>
          if existing.sha256 == sha then (st, events)
          else
            let doc : IngestDocRow := ⟨existing.id, path, title, sha, size⟩
            let removedIds :=
              (st.chunks.filter (fun c => c.document_id == existing.id)).map (fun c => c.id)
            let rows := mkChunkRows existing.id st.nextId chunks embeddings
            (⟨st.documents.map (fun d => if d.id == existing.id then doc else d),
                st.chunks.filter (fun c => !(c.document_id == existing.id)) ++ rows,
                (st.lexical.filter (fun r => !(removedIds.contains r.chunk_id))) ++ lexOf doc rows,
                st.nextId + chunks.length⟩,
              events ++ [.dbWrite, .lexRemoved removedIds, .lexAdded rows.length])
        | none =>
          let doc : IngestDocRow := ⟨st.nextId, path, title, sha, size⟩
          let rows := mkChunkRows doc.id (st.nextId + 1) chunks embeddings
          (⟨st.documents ++ [doc], st.chunks ++ rows, st.lexical ++ lexOf doc rows,
              st.nextId + 1 + chunks.length⟩,
            events ++ [.dbWrite, .lexAdded rows.length])

/-- A store already holding the C4 scenario file under path `/n/a.md`
with stored hash `"h"`. -/
def st0 : IngestStore :=
  ⟨[⟨1, "/n/a.md", "Title", "h", 31⟩],
    [⟨7, 1, 1, "# Title", some 1, some 1, none, some 2, [0]⟩],
    [⟨7, 1, "/n/a.md", "Title", "# Title", some 1, some 1⟩], 8⟩

/-- A trivial embedding oracle. -/
def embedStub : List String → List (List Int) := fun ts => ts.map (fun _ => [0])

section IngestProofs

/-- C3 counterexample: re-ingesting the unchanged scenario file (stored
sha equals the new sha `"h"`) still runs the chunker and the embedding
client — the trace records both before the skip — so the claim that the
skip happens before chunking/embedding, and that those run only when the
hash differs, is false; the store is nevertheless left unchanged. -/
theorem ingest_skip_counterexample :
    (ingestMarkdownFile st0 embedStub "/n/a.md" mdBodyC4 none "a" "h" 31 2 1).2 =
      [IngestEvent.chunked 2, IngestEvent.embedded 2] ∧
    IngestEvent.embedded 2 ∈
      (ingestMarkdownFile st0 embedStub "/n/a.md" mdBodyC4 none "a" "h" 31 2 1).2 ∧
    (ingestMarkdownFile st0 embedStub "/n/a.md" mdBodyC4 none "a" "h" 31 2 1).1 = st0 := by
  refine ⟨by decide, by decide, by decide⟩

/-- C3 amended: when a document with the same absolute path and the same
stored sha256 exists, `_ingest_file` performs no writes anywhere — the
relational store and the lexical index are returned unchanged and the
trace holds no write event — but the chunker and the embedding client
have already run by then (whenever the file has nonempty content and
chunks); chunking and embedding are not conditioned on the hash. -/
theorem ingest_skip_amended (st : IngestStore) (embed : List String → List (List Int))
    (path body : String) (metaTitle : Option String) (stem sha : String) (size : Nat)
    (maxTokens overlapTokens : Nat) (existing : IngestDocRow)
    (hfind : st.documents.find? (fun d => d.path == path) = some existing)
    (hsha : existing.sha256 = sha) :
    (ingestMarkdownFile st embed path body metaTitle stem sha size maxTokens overlapTokens).1 =
      st ∧
    (IngestEvent.dbWrite ∉
      (ingestMarkdownFile st embed path body metaTitle stem sha size maxTokens overlapTokens).2) ∧
    (∀ ids, IngestEvent.lexRemoved ids ∉
      (ingestMarkdownFile st embed path body metaTitle stem sha size maxTokens overlapTokens).2) ∧
    (∀ n, IngestEvent.lexAdded n ∉
      (ingestMarkdownFile st embed path body metaTitle stem sha size maxTokens overlapTokens).2) := by
  unfold ingestMarkdownFile
  by_cases h1 : (pyStrip body == "") = true
  · rw [if_pos h1]
    refine ⟨rfl, by simp, fun ids => by simp, fun n => by simp⟩
  · rw [if_neg h1]
    dsimp only
    by_cases h2 : (generateChunks (splitSections (splitLines (pyStrip body))
        (resolveTitle metaTitle (pyStrip body) stem)) maxTokens overlapTokens).isEmpty
    · rw [if_pos h2]
      refine ⟨rfl, by simp, fun ids => by simp, fun n => by simp⟩
    · rw [if_neg h2]
      by_cases h3 : (embed ((generateChunks (splitSections (splitLines (pyStrip body))
          (resolveTitle metaTitle (pyStrip body) stem)) maxTokens overlapTokens).map
            (fun c => c.text))).length ≠
          (generateChunks (splitSections (splitLines (pyStrip body))
            (resolveTitle metaTitle (pyStrip body) stem)) maxTokens overlapTokens).length
      · rw [if_pos h3]
        refine ⟨rfl, by simp, fun ids => by simp, fun n => by simp⟩
      · rw [if_neg h3, hfind]
        dsimp only
        rw [if_pos (by simp [hsha])]
        refine ⟨rfl, by simp, fun ids => by simp, fun n => by simp⟩

/-- Witness for `ingest_skip_amended` on the scenario store. -/
theorem ingest_skip_amended_witness :
    (ingestMarkdownFile st0 embedStub "/n/a.md" mdBodyC4 none "a" "h" 31 2 1).1 = st0 :=
  (ingest_skip_amended st0 embedStub "/n/a.md" mdBodyC4 none "a" "h" 31 2 1
    ⟨1, "/n/a.md", "Title", "h", 31⟩ (by decide) (by decide)).1

end IngestProofs

/-! ## Synthesis engine (services/synth/llama_local.py)

`ChatService.generate` / `_invoke_with_retries` / `_invoke` /
`_apply_schema_defaults`.  One model invocation is an oracle
`rpc : Nat → ModelResponse` giving the daemon's reply to the i-th
attempt: a transport failure (httpx timeout or HTTP error), a reply
without `message.content` (both raised as plain `ChatServiceError`),
a content string that `json.loads` rejects, or a parsed JSON value.
Exceptions are `GenError`: `validation` is `ChatServiceValidationError`,
`service` is a plain `ChatServiceError`, and `uncaught` is any other
Python exception escaping the `except` clauses (such as the `TypeError`
raised by `_apply_schema_defaults` on non-object JSON). -/

inductive Json
  | null
  | bool (b : Bool)
  | num (n : Int)
  | str (s : String)
  | arr (items : List Json)
  | obj (fields : List (String × Json))

inductive GenError
  | validation (msg : String)
  | service (msg : String)
  | uncaught
deriving Repr, DecidableEq

inductive ModelResponse
  | transportFailure
  | badStructure
  | notJson (raw : String)
  | jsonContent (j : Json)

/-- Dict field lookup (first binding wins). -/
def lookupField (fields : List (String × Json)) (k : String) : Option Json :=
  (fields.find? (fun p => p.1 == k)).map (fun p => p.2)

/-- Modelled from the spec: the answer JSON schema file
`pka/app/services/synth/response_schema.json` is referenced by the code
but absent from src/, so its top-level properties are reconstructed from
§6 of the spec — `abstain` (boolean), `answer` (string), `bullets`
(array of strings, default `[]`), `conflicts` (array of conflict
objects, default `[]`), `sources` (array of source objects, default
`[]`); the `Option Json` is the property's `default`, when present. -/
def schemaProperties : List (String × Option Json) :=
  [("abstain", none), ("answer", none), ("bullets", some (.arr [])),
   ("conflicts", some (.arr [])), ("sources", some (.arr []))]

/-- Python `key not in data` inside `_apply_schema_defaults`:
membership works for dicts (keys), strings (substring) and lists
(element equality); any other JSON value raises `TypeError`
(modelled as `Except.error ()`). -/
def keyMembership : Json → String → Except Unit Bool
  | .obj fields, k => .ok (lookupField fields k).isSome
  | .str s, k => .ok (containsChars s.data k.data)
  | .arr items, k =>
    .ok (items.any (fun j => match j with | .str s2 => s2 == k | _ => false))
  | .null, _ => .error ()
  | .bool _, _ => .error ()
  | .num _, _ => .error ()

/-- Python `data[key] = deepcopy(default)`: item assignment only works
for dicts here; on strings and lists it raises `TypeError`. -/
def setKey : Json → String → Json → Except Unit Json
  | .obj fields, k, v => .ok (.obj (fields ++ [(k, v)]))
  | _, _, _ => .error ()

/-- The property loop of `_apply_schema_defaults`: for every schema
property evaluate `key not in data` (which may raise), and fill in the
default when the key is missing and a default exists. -/
def applyDefaultsLoop : List (String × Option Json) → Json → Except Unit Json
  | [], data => .ok data
  | (k, d) :: rest, data =>
    match keyMembership data k with
    | .error _ => .error ()
    | .ok true => applyDefaultsLoop rest data
    | .ok false =>
      match d with
      | none => applyDefaultsLoop rest data
      | some dv =>
        match setKey data k dv with
        | .error _ => .error ()
        | .ok data2 => applyDefaultsLoop rest data2

/-- `ChatService._apply_schema_defaults` over the modelled schema. -/
def applySchemaDefaults (data : Json) : Except Unit Json :=
  applyDefaultsLoop schemaProperties data

/-- Is the JSON value a string? -/
def isStr : Json → Bool
  | .str _ => true
  | _ => false

/-- A `{id: string, loc: string}` source object. -/
def validSource : Json → Bool
  | .obj fields =>
    (match lookupField fields "id" with | some (.str _) => true | _ => false) &&
    (match lookupField fields "loc" with | some (.str _) => true | _ => false)
  | _ => false

/-- A `{claim: string, sources: [source]}` conflict object. -/
def validConflict : Json → Bool
  | .obj fields =>
    (match lookupField fields "claim" with | some (.str _) => true | _ => false) &&
    (match lookupField fields "sources" with
      | some (.arr items) => items.all validSource
      | _ => false)
  | _ => false

/-- Draft-07 validation of the modelled answer schema (run after the
defaults step, so every property is required): returns the first error
message, `none` on success. -/
def validateAnswer (data : Json) : Option String :=
  match data with
  | .obj fields =>
    if !(match lookupField fields "abstain" with | some (.bool _) => true | _ => false) then
      some "abstain must be a boolean"
    else if !(match lookupField fields "answer" with | some (.str _) => true | _ => false) then
      some "answer must be a string"
    else if !(match lookupField fields "bullets" with
        | some (.arr items) => items.all isStr | _ => false) then
      some "bullets must be an array of strings"
    else if !(match lookupField fields "conflicts" with
        | some (.arr items) => items.all validConflict | _ => false) then
      some "conflicts must be an array of conflict objects"
    else if !(match lookupField fields "sources" with
        | some (.arr items) => items.all validSource | _ => false) then
      some "sources must be an array of source objects"
    else none
  | _ => some "response must be a JSON object"

/-- The ≤160-character preview of a non-JSON response. -/
def jsonPreview (raw : String) : String :=
  let preview := pyStrip raw
  if 160 < preview.data.length then String.mk (preview.data.take 160) ++ "…" else preview

/-- The `ChatServiceValidationError` message for unparsable content. -/
def notJsonMsg (raw : String) : String :=
  "Response was not valid JSON. Preview: " ++ jsonPreview raw

/-- `ChatService._invoke` for one model response: transport and
structure failures are `ChatServiceError`; unparsable content is a
validation error carrying a preview; parsed JSON goes through the
defaults step (whose `TypeError` on non-object values is uncaught) and
then schema validation, returning the defaulted object on success. -/
def invoke (resp : ModelResponse) : Except GenError Json :=
  match resp with
  | .transportFailure => .error (.service "Ollama chat request failed")
  | .badStructure => .error (.service "Unexpected Ollama response structure.")
  | .notJson raw => .error (.validation (notJsonMsg raw))
  | .jsonContent j =>
    match applySchemaDefaults j with
    | .error _ => .error .uncaught
    | .ok j2 =>
      match validateAnswer j2 with
      | some m => .error (.validation ("Response failed schema validation: " ++ m))
      | none => .ok j2

/-- The correction turn appended after a validation failure. -/
def correctionMsg (m : String) : String × String :=
  ("user", "The previous response was invalid: " ++ m ++
    "\nRespond again with strictly valid JSON that satisfies the schema.")

/-- The `for attempt in range(self.max_retries + 1)` loop of
`_invoke_with_retries`, carrying the remaining attempts, the next
attempt index, the message list and `last_error`: a validation error is
recorded, a correction is appended and the loop continues; a
`ChatServiceError` breaks and is raised; any other exception propagates;
an exhausted loop raises the last recorded error. -/
def retryGo (rpc : Nat → ModelResponse) :
    Nat → Nat → List (String × String) → Option GenError →
    Except GenError Json × List (String × String)
  | 0, _, messages, last =>
    match last with
    | some e => (.error e, messages)
    | none => (.error (.service "Chat generation failed for an unknown reason."), messages)
  | remaining + 1, i, messages, _last =>
    match invoke (rpc i) with
    | .ok j => (.ok j, messages)
    | .error (.validation m) =>
      retryGo rpc remaining (i + 1) (messages ++ [correctionMsg m]) (some (.validation m))
    | .error (.service m) => (.error (.service m), messages)
    | .error .uncaught => (.error .uncaught, messages)

/-- `ChatService._invoke_with_retries`. -/
def invokeWithRetries (rpc : Nat → ModelResponse) (maxRetries : Nat)
    (messages : List (String × String)) :
    Except GenError Json × List (String × String) :=
  retryGo rpc (maxRetries + 1) 0 messages none

structure CitationSource where
  id : String
  loc : String
deriving Repr, DecidableEq

structure ConflictEntry where
  claim : String
  sources : List CitationSource
deriving Repr, DecidableEq

structure ChatAnswer where
  abstain : Bool
  answer : String
  bullets : List String
  conflicts : List ConflictEntry
  sources : List CitationSource
deriving Repr, DecidableEq

/-- Pydantic parse of one source object. -/
def parseSource : Json → Option CitationSource
  | .obj fields =>
    match lookupField fields "id", lookupField fields "loc" with
    | some (.str i), some (.str l) => some ⟨i, l⟩
    | _, _ => none
  | _ => none

/-- Pydantic parse of a string. -/
def parseStr : Json → Option String
  | .str s => some s
  | _ => none

/-- Pydantic parse of one conflict entry. -/
def parseConflict : Json → Option ConflictEntry
  | .obj fields =>
    match lookupField fields "claim" with
    | some (.str c) =>
      match lookupField fields "sources" with
      | some (.arr items) => (items.mapM parseSource).map (fun ss => ⟨c, ss⟩)
      | _ => none
    | _ => none
  | _ => none

/-- `ChatAnswer.model_validate`: required `abstain`/`answer`, the three
list fields defaulting to `[]` when missing. -/
def chatAnswerOfJson : Json → Option ChatAnswer
  | .obj fields =>
    match lookupField fields "abstain", lookupField fields "answer" with
    | some (.bool b), some (.str a) =>
      let bullets := match lookupField fields "bullets" with
        | none => some []
        | some (.arr bs) => bs.mapM parseStr
        | some _ => none
      let conflicts := match lookupField fields "conflicts" with
        | none => some []
        | some (.arr cs) => cs.mapM parseConflict
        | some _ => none
      let sources := match lookupField fields "sources" with
        | none => some []
        | some (.arr ss) => ss.mapM parseSource
        | some _ => none
      match bullets, conflicts, sources with
      | some bu, some co, some so => some ⟨b, a, bu, co, so⟩
      | _, _, _ => none
    | _, _ => none
  | _ => none

/-- `ChatService.generate` after prompt assembly: run the retry loop and
materialize the answer object from the validated JSON. -/
def generate (rpc : Nat → ModelResponse) (maxRetries : Nat)
    (messages : List (String × String)) :
    Except GenError ChatAnswer × List (String × String) :=
  match invokeWithRetries rpc maxRetries messages with
  | (.ok j, msgs) =>
    match chatAnswerOfJson j with
    | some a => (.ok a, msgs)
    | none => (.error .uncaught, msgs)
  | (.error e, msgs) => (.error e, msgs)

section SynthesisProofs

lemma invoke_ok (resp : ModelResponse) (j : Json) (h : invoke resp = .ok j) :
    validateAnswer j = none := by
  cases resp with
  | transportFailure => simp [invoke] at h
  | badStructure => simp [invoke] at h
  | notJson raw => simp [invoke] at h
  | jsonContent j0 =>
    rw [invoke] at h
    cases hdef : applySchemaDefaults j0 with
    | error e => rw [hdef] at h; simp at h
    | ok j2 =>
      rw [hdef] at h
      dsimp only at h
      cases hval : validateAnswer j2 with
      | some m => rw [hval] at h; simp at h
      | none =>
        rw [hval] at h
        simp only [Except.ok.injEq] at h
        rw [← h]
        exact hval

lemma retryGo_ok (rpc : Nat → ModelResponse) :
    ∀ (r i : Nat) (ms : List (String × String)) (last : Option GenError)
      (j : Json) (msgs : List (String × String)),
      retryGo rpc r i ms last = (.ok j, msgs) → ∃ k, invoke (rpc k) = .ok j := by
  intro r
  induction r with
  | zero =>
    intro i ms last j msgs h
    cases last <;> simp [retryGo] at h
  | succ r ih =>
    intro i ms last j msgs h
    rw [retryGo] at h
    cases hcall : invoke (rpc i) with
    | ok j0 =>
      rw [hcall] at h
      simp only [Prod.mk.injEq] at h
      exact ⟨i, by rw [hcall, h.1]⟩
    | error e =>
      rw [hcall] at h
      cases e with
      | validation m => exact ih (i + 1) _ _ j msgs h
      | service m => simp at h
      | uncaught => simp at h

lemma retryGo_shift (rpc : Nat → ModelResponse) :
    ∀ (r i : Nat) (ms : List (String × String)) (last : Option GenError),
      retryGo rpc r (i + 1) ms last = retryGo (fun k => rpc (k + 1)) r i ms last := by
  intro r
  induction r with
  | zero => intro i ms last; rfl
  | succ r ih =>
    intro i ms last
    rw [retryGo, retryGo]
    cases invoke (rpc (i + 1)) with
    | ok j => rfl
    | error e =>
      cases e with
      | validation m => exact ih (i + 1) _ _
      | service m => rfl
      | uncaught => rfl

lemma retryGo_last_irrel (rpc : Nat → ModelResponse) (r i : Nat)
    (ms : List (String × String)) (last last2 : Option GenError) (hr : 1 ≤ r) :
    retryGo rpc r i ms last = retryGo rpc r i ms last2 := by
  cases r with
  | zero => omega
  | succ r =>
    rw [retryGo, retryGo]

lemma retryGo_congr (rpc rpc2 : Nat → ModelResponse) :
    ∀ (r i : Nat) (ms : List (String × String)) (last : Option GenError),
      (∀ k, k < r → rpc (i + k) = rpc2 (i + k)) →
      retryGo rpc r i ms last = retryGo rpc2 r i ms last := by
  intro r
  induction r with
  | zero => intro i ms last _; rfl
  | succ r ih =>
    intro i ms last hag
    have h0 : rpc i = rpc2 i := by simpa using hag 0 (by omega)
    rw [retryGo, retryGo, h0]
    cases invoke (rpc2 i) with
    | ok j => rfl
    | error e =>
      cases e with
      | validation m =>
        refine ih (i + 1) _ _ (fun k hk => ?_)
        have := hag (k + 1) (by omega)
        rw [show i + (k + 1) = i + 1 + k by omega] at this
        exact this
      | service m => rfl
      | uncaught => rfl

lemma retryGo_all_validation (rpc : Nat → ModelResponse) :
    ∀ (r i : Nat) (ms : List (String × String)) (last : Option GenError), 1 ≤ r →
      (∀ k, k < r → ∃ m, invoke (rpc (i + k)) = .error (.validation m)) →
      ∃ m, invoke (rpc (i + (r - 1))) = .error (.validation m) ∧
        (retryGo rpc r i ms last).1 = .error (.validation m) := by
  intro r
  induction r with
  | zero => intro i ms last h; omega
  | succ r ih =>
    intro i ms last _ hall
    obtain ⟨m0, hm0⟩ := hall 0 (by omega)
    rw [show i + 0 = i by omega] at hm0
    by_cases hr : 1 ≤ r
    · obtain ⟨m, hm, hres⟩ := ih (i + 1) (ms ++ [correctionMsg m0])
        (some (.validation m0)) hr (fun k hk => by
          have := hall (k + 1) (by omega)
          rw [show i + (k + 1) = i + 1 + k by omega] at this
          exact this)
      refine ⟨m, ?_, ?_⟩
      · rw [show i + (r + 1 - 1) = i + 1 + (r - 1) by omega]
        exact hm
      · rw [retryGo, hm0]
        exact hres
    · have hr0 : r = 0 := by omega
      subst hr0
      refine ⟨m0, by simpa using hm0, ?_⟩
      rw [retryGo, hm0]
      rfl

/-- C2 amended: the retry loop never yields an answer object that fails
the (spec-modelled) Draft-07 schema — a successful result always comes
from a response whose defaulted JSON object validated; an unparsable
response or a JSON **object** failing validation triggers a further
attempt with a user correction message naming the failure appended, up
to `max_retries` extra attempts, the loop reads at most `max_retries+1`
responses, a transport or protocol `ChatServiceError` is raised
immediately without retry, and when every attempt fails validation the
last validation error is raised.  However (see the counterexample) a
response that parses to a **non-object** JSON value is not retried and
raises an uncaught `TypeError` from the defaults step instead of a
validation error. -/
theorem generate_retry_contract (rpc : Nat → ModelResponse) (n : Nat)
    (msgs0 : List (String × String)) :
    (∀ j msgs, invokeWithRetries rpc n msgs0 = (.ok j, msgs) → validateAnswer j = none) ∧
    (∀ a msgs, generate rpc n msgs0 = (.ok a, msgs) →
      ∃ j, validateAnswer j = none ∧ chatAnswerOfJson j = some a) ∧
    (∀ m, invoke (rpc 0) = .error (.validation m) →
      invokeWithRetries rpc 0 msgs0 = (.error (.validation m), msgs0 ++ [correctionMsg m])) ∧
    (∀ m k, n = k + 1 → invoke (rpc 0) = .error (.validation m) →
      invokeWithRetries rpc n msgs0 =
        invokeWithRetries (fun i => rpc (i + 1)) k (msgs0 ++ [correctionMsg m])) ∧
    (∀ m, invoke (rpc 0) = .error (.service m) →
      invokeWithRetries rpc n msgs0 = (.error (.service m), msgs0)) ∧
    ((∀ i, i ≤ n → ∃ m, invoke (rpc i) = .error (.validation m)) →
      ∃ m, invoke (rpc n) = .error (.validation m) ∧
        (invokeWithRetries rpc n msgs0).1 = .error (.validation m)) ∧
    (∀ rpc2 : Nat → ModelResponse, (∀ i, i ≤ n → rpc i = rpc2 i) →
      invokeWithRetries rpc n msgs0 = invokeWithRetries rpc2 n msgs0) := by
  refine ⟨?_, ?_, ?_, ?_, ?_, ?_, ?_⟩
  · intro j msgs h
    obtain ⟨k, hk⟩ := retryGo_ok rpc (n + 1) 0 msgs0 none j msgs h
    exact invoke_ok _ _ hk
  · intro a msgs h
    rw [generate] at h
    cases hr : invokeWithRetries rpc n msgs0 with
    | mk res ms2 =>
      rw [hr] at h
      cases res with
      | ok j =>
        dsimp only at h
        cases hpj : chatAnswerOfJson j with
        | none => rw [hpj] at h; simp at h
        | some a2 =>
          rw [hpj] at h
          simp only [Prod.mk.injEq] at h
          obtain ⟨ha, hms⟩ := h
          have ha2 : a2 = a := by simpa using ha
          obtain ⟨k, hk⟩ := retryGo_ok rpc (n + 1) 0 msgs0 none j ms2 hr
          exact ⟨j, invoke_ok _ _ hk, by rw [hpj, ha2]⟩
      | error e => simp at h
  · intro m hm
    rw [invokeWithRetries, retryGo, hm]
    rfl
  · intro m k hn hm
    subst hn
    rw [invokeWithRetries, retryGo, hm]
    dsimp only
    rw [retryGo_shift, invokeWithRetries]
    exact retryGo_last_irrel _ _ _ _ _ _ (by omega)
  · intro m hm
    rw [invokeWithRetries, retryGo, hm]
  · intro hall
    have := retryGo_all_validation rpc (n + 1) 0 msgs0 none (by omega)
      (fun k hk => by simpa using hall k (by omega))
    simpa using this
  · intro rpc2 hag
    rw [invokeWithRetries, invokeWithRetries]
    exact retryGo_congr rpc rpc2 (n + 1) 0 msgs0 none
      (fun k hk => by simpa using hag k (by omega))

/-- C2 counterexample: a model response that parses to the JSON number 3
fails schema validation (the root must be an object), yet the engine
does not retry and does not raise the validation error: the defaults
step raises an uncaught `TypeError` (`"bullets" not in 3`), the message
list is left without any correction turn, and `generate` surfaces the
uncaught exception. -/
theorem generate_nonobject_counterexample :
    validateAnswer (Json.num 3) = some "response must be a JSON object" ∧
    applySchemaDefaults (Json.num 3) = .error () ∧
    invokeWithRetries (fun _ => ModelResponse.jsonContent (Json.num 3)) 1 [] =
      (.error .uncaught, []) ∧
    generate (fun _ => ModelResponse.jsonContent (Json.num 3)) 1 [] =
      (.error .uncaught, []) := by
  exact ⟨rfl, rfl, rfl, rfl⟩

/-- Witness for `generate_retry_contract`: a transport failure on the
first attempt is surfaced immediately with no correction appended. -/
theorem generate_retry_contract_witness :
    invokeWithRetries (fun _ => ModelResponse.transportFailure) 1 [] =
      (.error (.service "Ollama chat request failed"), []) :=
  (generate_retry_contract (fun _ => ModelResponse.transportFailure) 1 []).2.2.2.2.1
    "Ollama chat request failed" rfl

end SynthesisProofs

end NestAi
